import Mathlib

/-!
# HS_Ladder: the ranked-play ladder simulator

A shallow embedding of `src/HS_Ladder.cpp` and the properties of its
specification that concern the progression rule (`HSPlayer::UpdatePlayer`),
the rank table (`StarsToRank`), the matchmaking tick (`PlaySingleGame`) and
the ladder loop (`PlayGames`).

Modelling conventions.

* C++ `int` is modelled by `Int`.  Signed overflow is undefined behaviour in
  C++ and is outside the model: every counter is taken to stay inside the
  range of `int`.
* C++ `double` is modelled by `Rat`.  The only floating-point operation that
  is not a comparison or an assignment is the logistic expression
  `1.0 / (1.0 + pow(10, x))`; the library function `pow(10, ·)` is a
  parameter `powTen` of the model, and every theorem holds for every choice
  of it.
* The uniform random source `real_distribution(real_generator)` is a stream
  `real_distribution : Nat → Rat` of variates together with a cursor
  (`Globals.real_generator`) counting how many variates have been drawn.
* The global variables of the program are the fields of `Globals`; text sent
  to `cout` is appended to `Globals.cout`, one entry per line.
* Indexing a `vector` out of bounds and `%` by zero are undefined behaviour;
  the model returns `none` there.
-/

namespace HSLadder

/-! ## Data model -/

/-- The class `HSPlayer` (lines 25-40). -/
structure HSPlayer where
  Wins : Int
  Losses : Int
  Stars : Int
  WinStreak : Int
  Rating : Rat
  LegendAtWins : Int
  LegendAtLosses : Int
  deriving DecidableEq, Repr

/-- The constructor `HSPlayer::HSPlayer()` (lines 36-37): every field zero. -/
def HSPlayer.ctor : HSPlayer :=
  { Wins := 0, Losses := 0, Stars := 0, WinStreak := 0, Rating := 0,
    LegendAtWins := 0, LegendAtLosses := 0 }

/-- The method `isLegend` (line 35): `Stars > 95`. -/
def HSPlayer.isLegend (self : HSPlayer) : Bool :=
  decide (self.Stars > 95)

/-- The win branch of `UpdatePlayer` (lines 54-58). -/
def HSPlayer.winBranch (self : HSPlayer) : HSPlayer :=
  let s1 : HSPlayer :=
    { self with Wins := self.Wins + 1, WinStreak := self.WinStreak + 1,
                Stars := self.Stars + 1 }
  -- Bonus star for win streak, but only before rank 5
  if s1.WinStreak > 2 ∧ s1.Stars ≤ 45 then { s1 with Stars := s1.Stars + 1 } else s1

/-- The loss branch of `UpdatePlayer` (lines 62-69). -/
def HSPlayer.lossBranch (self : HSPlayer) : HSPlayer :=
  let s1 : HSPlayer := { self with Losses := self.Losses + 1, WinStreak := 0 }
  -- Only lose stars if you are Rank 20 or better; base legends keep theirs
  if s1.Stars > 10 ∧ s1.Stars ≠ 96 then { s1 with Stars := s1.Stars - 1 } else s1

/-- The method `HSPlayer::UpdatePlayer` (lines 48-82).  The opponent is a
parameter of the source function and is not read by it. -/
def HSPlayer.UpdatePlayer (self : HSPlayer) (isWinner : Bool) (_opponent : HSPlayer) :
    HSPlayer :=
  let startingStars := self.Stars
  let s2 := if isWinner then self.winBranch else self.lossBranch
  -- Player became a legend at this turn
  if s2.Stars > 95 ∧ startingStars ≤ 95 then
    { s2 with LegendAtLosses := s2.Losses, LegendAtWins := s2.Wins }
  else s2

/-- The table `ranks` of `StarsToRank` (lines 86-92), 107 entries. -/
def ranks : List Int :=
  [25, 25, 25, 24, 24, 23, 23, 22, 22, 21, 21,
   20, 20, 20, 19, 19, 19, 18, 18, 18, 17, 17, 17, 16, 16, 16,
   15, 15, 15, 15, 14, 14, 14, 14, 13, 13, 13, 13, 12, 12, 12, 12, 11, 11, 11, 11,
   10, 10, 10, 10, 10, 9, 9, 9, 9, 9, 8, 8, 8, 8, 8, 7, 7, 7, 7, 7, 6, 6, 6, 6, 6,
   5, 5, 5, 5, 5,
   4, 4, 4, 4, 4, 3, 3, 3, 3, 3, 2, 2, 2, 2, 2, 1, 1, 1, 1, 1,
   0, 0, 0, 0, 0, 0, 0, 0, 0, 0, 0]

/-- The function `StarsToRank` (lines 84-99). -/
def StarsToRank (stars : Int) : Int :=
  if h0 : stars < 0 then 25
  else if h1 : stars > 95 then 0
  else ranks.get ⟨stars.toNat, by have hlen : ranks.length = 107 := rfl; omega⟩

/-- A sequence of match results applied to one player by successive calls of
`UpdatePlayer`; a result is the flag `isWinner` and the opponent. -/
def applyResults (p : HSPlayer) (rs : List (Bool × HSPlayer)) : HSPlayer :=
  rs.foldl (fun q r => q.UpdatePlayer r.1 r.2) p

/-! ## Global state -/

/-- The global variables of the program: `Population` (line 101),
`TotalGamesPlayed` (line 23), the number of variates drawn so far from
`real_generator` (line 20), and the lines written to `cout`. -/
structure Globals where
  Population : List HSPlayer
  TotalGamesPlayed : Int
  real_generator : Nat
  cout : List String

/-- The body of the `for` loop of `SetupPopulation` (lines 117-126), with
`n` iterations left and loop counter `i`; `ratingMaker i` is the `i`-th normal
variate produced by the local generator. -/
def SetupPopulation.loop (ratingMaker : Nat → Rat) : Nat → Nat → List HSPlayer → List HSPlayer
  | 0, _, Population => Population
  | n + 1, i, Population =>
    let player := HSPlayer.ctor
    let rating := ratingMaker i
    -- Clamp rating just in case
    let rating := if rating < 100 then 100 else rating
    let rating := if rating > 2900 then 2900 else rating
    SetupPopulation.loop ratingMaker n (i + 1) (Population ++ [{ player with Rating := rating }])

/-- The function `SetupPopulation` (lines 105-127).  `reserve` of a negative
count throws, which the model reports as `none`. -/
def SetupPopulation (ratingMaker : Nat → Rat) (g : Globals) (numPlayers : Int) :
    Option Globals :=
  if numPlayers < 0 then none
  else some { g with Population := SetupPopulation.loop ratingMaker numPlayers.toNat 0 [] }

/-! ## Matchmaking and the single tick -/

/-- The `for` loop of `PlaySingleGame` (lines 147-160) with `n` iterations
left; the result is the pair `(bestMatchPos, bestMatchDiff)`. -/
def scanLoop (Population : List HSPlayer) (hpop : 0 < Population.length) (p1 : HSPlayer) :
    Nat → Nat → Int → Int → Int × Int
  | 0, _, bestMatchPos, bestMatchDiff => (bestMatchPos, bestMatchDiff)
  | n + 1, p2Pos, bestMatchPos, bestMatchDiff =>
    let p2Pos := (p2Pos + 1) % Population.length
    let m := Population.get ⟨p2Pos, Nat.mod_lt _ hpop⟩
    let best : Int × Int :=
      if |p1.Stars - m.Stars| < bestMatchDiff then ((p2Pos : Int), |p1.Stars - m.Stars|)
      else (bestMatchPos, bestMatchDiff)
    -- Trying to speed things up a bit!
    if best.2 = 0 then best
    else scanLoop Population hpop p1 n p2Pos best.1 best.2

/-- The four ways the matchmaking part of `PlaySingleGame` (lines 135-175)
ends: the three early returns and the selection of an opponent. -/
inductive Matchmaking where
  /-- The focal player is legend: `return` of line 139. -/
  | legendSkip
  /-- `bestMatchDiff == 1000`: prints and returns, lines 162-166. -/
  | noMatchFound
  /-- `bestMatchDiff > 3`: `return` of line 172. -/
  | noCloseMatch
  /-- The opponent `Population[bestMatchPos]` of line 175 is selected. -/
  | opponent (bestMatchPos : Int)
  deriving DecidableEq, Repr

/-- The matchmaking part of `PlaySingleGame` (lines 135-175) for a valid
focal index `playerNo`. -/
def findOpponent (Population : List HSPlayer) (playerNo : Nat)
    (h : playerNo < Population.length) : Matchmaking :=
  let p1 := Population.get ⟨playerNo, h⟩
  -- Legends don't compete any more, unless challenged by a non-legend
  if p1.isLegend then Matchmaking.legendSkip
  else
    let best := scanLoop Population (Nat.lt_of_le_of_lt (Nat.zero_le _) h) p1
      (Population.length - 1) playerNo (-1) 1000
    if best.2 = 1000 then Matchmaking.noMatchFound
    else if best.2 > 3 then Matchmaking.noCloseMatch
    else Matchmaking.opponent best.1

/-- The expected outcome `expP1` of `PlaySingleGame` (lines 178-185): the
logistic expression, then the fudge-factor clamp. -/
def expP1 (powTen : Rat → Rat) (p1 p2 : HSPlayer) : Rat :=
  let e : Rat := 1 / (1 + powTen ((p2.Rating - p1.Rating) / 400))
  let fudgeFactor : Rat := 5 / 100
  let e := if e < fudgeFactor then fudgeFactor else e
  if e > 1 - fudgeFactor then 1 - fudgeFactor else e

/-- The match itself (lines 175-193) between the focal player at `playerNo`
and the opponent at `bestMatchPos`.  Both players are references into
`Population`, so the opponent is read again after the focal player has been
updated. -/
def playMatch (real_distribution : Nat → Rat) (powTen : Rat → Rat) (g : Globals)
    (playerNo : Nat) (bestMatchPos : Int) : Option Globals :=
  if bestMatchPos < 0 then none
  else
    match g.Population[playerNo]?, g.Population[bestMatchPos.toNat]? with
    | some p1, some p2 =>
      let matchResult := real_distribution g.real_generator
      let p1Wins : Bool := decide (matchResult < expP1 powTen p1 p2)
      let p1new := p1.UpdatePlayer p1Wins p2
      let pop1 := g.Population.set playerNo p1new
      match pop1[bestMatchPos.toNat]? with
      | some p2cur =>
        some { g with
          Population := pop1.set bestMatchPos.toNat (p2cur.UpdatePlayer (!p1Wins) p1new)
          real_generator := g.real_generator + 1 }
      | none => none
    | _, _ => none

/-- The function `PlaySingleGame` (lines 130-195).  The focal index is a
`Nat`; an index outside the population is undefined behaviour (`none`). -/
def PlaySingleGame (real_distribution : Nat → Rat) (powTen : Rat → Rat) (g : Globals)
    (playerNo : Nat) : Option Globals :=
  if h : playerNo < g.Population.length then
    match findOpponent g.Population playerNo h with
    | Matchmaking.legendSkip => some g
    | Matchmaking.noMatchFound => some { g with cout := g.cout ++ ["No match found!"] }
    | Matchmaking.noCloseMatch => some g
    | Matchmaking.opponent bestMatchPos =>
      playMatch real_distribution powTen g playerNo bestMatchPos
  else none

/-! ## The ladder loop -/

/-- The `for` loop of `PlayGames` (lines 200-213) with `n` iterations left. -/
def PlayGames.loop (real_distribution : Nat → Rat) (powTen : Rat → Rat) :
    Nat → Nat → Globals → Option Globals
  | 0, _, g => some g
  | n + 1, playerNo, g =>
    match PlaySingleGame real_distribution powTen g playerNo with
    | none => none
    | some g1 =>
      -- Each player gets to play in turn.
      if g1.Population.length = 0 then none
      else
        PlayGames.loop real_distribution powTen n ((playerNo + 1) % g1.Population.length)
          { g1 with TotalGamesPlayed := g1.TotalGamesPlayed + 1 }

/-- The function `PlayGames` (lines 197-215). -/
def PlayGames (real_distribution : Nat → Rat) (powTen : Rat → Rat) (g : Globals)
    (numGames : Int) : Option Globals :=
  match PlayGames.loop real_distribution powTen numGames.toNat 0 g with
  | none => none
  | some g1 =>
    some { g1 with cout := g1.cout ++ ["Played " ++ toString g1.TotalGamesPlayed ++ " games"] }

/-- Whether the tick `PlaySingleGame(playerNo)` produces a game in state `g`:
the matchmaking part reaches line 175 with an opponent. -/
def producesGame (g : Globals) (playerNo : Nat) : Bool :=
  if h : playerNo < g.Population.length then
    match findOpponent g.Population playerNo h with
    | Matchmaking.opponent _ => true
    | _ => false
  else false

/-- The number of ticks, among the `n` ticks of the loop of `PlayGames` started
at cursor `playerNo` in state `g`, that produce a game. -/
def gameTicks (real_distribution : Nat → Rat) (powTen : Rat → Rat) :
    Nat → Nat → Globals → Nat
  | 0, _, _ => 0
  | n + 1, playerNo, g =>
    match PlaySingleGame real_distribution powTen g playerNo with
    | none => 0
    | some g1 =>
      (if producesGame g playerNo then 1 else 0) +
        gameTicks real_distribution powTen n ((playerNo + 1) % g1.Population.length)
          { g1 with TotalGamesPlayed := g1.TotalGamesPlayed + 1 }

/-- The total of `Wins + Losses` over all players of a population. -/
def totalWinsLosses (Population : List HSPlayer) : Int :=
  (Population.map (fun p => p.Wins + p.Losses)).sum

/-- The total of `Wins` over all players of a population. -/
def totalWins (Population : List HSPlayer) : Int :=
  (Population.map (fun p => p.Wins)).sum

/-- The total of `Losses` over all players of a population. -/
def totalLosses (Population : List HSPlayer) : Int :=
  (Population.map (fun p => p.Losses)).sum

/-! ## The win probability over an arbitrary ordered field -/

/-- The logistic expression of line 178,
`1.0 / (1.0 + pow(10, (ratingB - ratingA) / 400.0))`, over an ordered field `K`
standing for `double`, with `powTen` standing for `pow(10, ·)`. -/
def logisticOutcome {K : Type} [LinearOrderedField K] (powTen : K → K)
    (ratingA ratingB : K) : K :=
  1 / (1 + powTen ((ratingB - ratingA) / 400))

/-- The fudge-factor clamp of lines 183-185 over an ordered field. -/
def clampFudge {K : Type} [LinearOrderedField K] (expP1 : K) : K :=
  let fudgeFactor : K := 5 / 100
  let e := if expP1 < fudgeFactor then fudgeFactor else expP1
  if e > 1 - fudgeFactor then 1 - fudgeFactor else e

/-- The win probability used for the match (lines 178-185) over an ordered
field: the logistic expression, then the clamp. -/
def winProbability {K : Type} [LinearOrderedField K] (powTen : K → K)
    (ratingA ratingB : K) : K :=
  clampFudge (logisticOutcome powTen ratingA ratingB)

/-! ## The matchmaking scan without its early exit -/

/-- The scan of `PlaySingleGame` with the statement `if (bestMatchDiff == 0) break;`
removed: the same loop, always examining all `n` remaining candidates. -/
def scanLoopNoBreak (Population : List HSPlayer) (hpop : 0 < Population.length)
    (p1 : HSPlayer) : Nat → Nat → Int → Int → Int × Int
  | 0, _, bestMatchPos, bestMatchDiff => (bestMatchPos, bestMatchDiff)
  | n + 1, p2Pos, bestMatchPos, bestMatchDiff =>
    let p2Pos := (p2Pos + 1) % Population.length
    let m := Population.get ⟨p2Pos, Nat.mod_lt _ hpop⟩
    let best : Int × Int :=
      if |p1.Stars - m.Stars| < bestMatchDiff then ((p2Pos : Int), |p1.Stars - m.Stars|)
      else (bestMatchPos, bestMatchDiff)
    scanLoopNoBreak Population hpop p1 n p2Pos best.1 best.2

/-- The matchmaking part of `PlaySingleGame` with the scan replaced by the scan
without early exit. -/
def findOpponentFullScan (Population : List HSPlayer) (playerNo : Nat)
    (h : playerNo < Population.length) : Matchmaking :=
  let p1 := Population.get ⟨playerNo, h⟩
  if p1.isLegend then Matchmaking.legendSkip
  else
    let best := scanLoopNoBreak Population (Nat.lt_of_le_of_lt (Nat.zero_le _) h) p1
      (Population.length - 1) playerNo (-1) 1000
    if best.2 = 1000 then Matchmaking.noMatchFound
    else if best.2 > 3 then Matchmaking.noCloseMatch
    else Matchmaking.opponent best.1

/-! ## The arena simulator -/

/-- The outputs of `ArenaReward` (lines 285-334); `Pack` is passed by value and
is not an output. -/
structure Reward where
  Gold : Int
  Dust : Int
  Common : Int
  Rare : Int
  Epic : Int
  GCommon : Int
  GRare : Int
  GEpic : Int
  deriving DecidableEq, Repr

/-- The function `ArenaReward` (lines 285-334). -/
def ArenaReward (Wins : Int) : Reward :=
  let zero : Reward :=
    { Gold := 0, Dust := 0, Common := 0, Rare := 0, Epic := 0,
      GCommon := 0, GRare := 0, GEpic := 0 }
  match Wins with
  | 0 => { zero with Gold := 30 }
  | 1 => { zero with Gold := 40 }
  | 2 => { zero with Gold := 45 }
  | 3 => { zero with Gold := 50 }
  | 4 => { zero with Gold := 70 }
  | 5 => { zero with Gold := 105 }
  | 6 => { zero with Gold := 150 }
  | 7 => { zero with Gold := 190 }
  | 8 => { zero with Gold := 200 }
  | 9 => { zero with Gold := 250 }
  | 10 => { zero with Gold := 280 }
  | 11 => { zero with Gold := 330 }
  | 12 => { zero with Gold := 500 }
  | _ => zero

/-- The `while` loop of `ArenaRun` (lines 340-346) from the state `Wins`,
`Losses`, with `gen` variates drawn so far from `real_generator`.  The result is
the final `Wins`, `Losses` and number of variates drawn. -/
def ArenaRun.loop (real_distribution : Nat → Rat) (WinRate : Rat)
    (Wins Losses : Int) (gen : Nat) : Int × Int × Nat :=
  if Wins < 12 ∧ Losses < 3 then
    let matchResult := real_distribution gen
    let p1Wins : Bool := decide (matchResult < WinRate)
    if p1Wins then ArenaRun.loop real_distribution WinRate (Wins + 1) Losses (gen + 1)
    else ArenaRun.loop real_distribution WinRate Wins (Losses + 1) (gen + 1)
  else (Wins, Losses, gen)
termination_by (12 - Wins).toNat + (3 - Losses).toNat
decreasing_by
  all_goals simp_wf
  all_goals omega

/-- The function `ArenaRun` (lines 336-347): the outputs `Wins` and `Losses`
and the globals after the run. -/
def ArenaRun (real_distribution : Nat → Rat) (g : Globals) (WinRate : Rat) :
    Int × Int × Globals :=
  let r := ArenaRun.loop real_distribution WinRate 0 0 g.real_generator
  (r.1, r.2.1, { g with real_generator := r.2.2 })

/-- The statement `++Results[Wins][Losses]` of line 372 on an array of rows;
an index outside the array is undefined behaviour (`none`). -/
def incrResults (Results : List (List Int)) (Wins Losses : Int) : Option (List (List Int)) :=
  if Wins < 0 ∨ Losses < 0 then none
  else
    match Results[Wins.toNat]? with
    | none => none
    | some row =>
      match row[Losses.toNat]? with
      | none => none
      | some count => some (Results.set Wins.toNat (row.set Losses.toNat (count + 1)))

/-- The local variables of `PlayArena` that the loop updates. -/
structure ArenaLocals where
  bust : Bool
  bustCount : Int
  gold : Int
  Results : List (List Int)

/-- The `for` loop of `PlayArena` (lines 358-378) with `n` iterations left. -/
def PlayArena.loop (real_distribution : Nat → Rat) (WinRate : Rat) :
    Nat → ArenaLocals → Globals → Option (ArenaLocals × Globals)
  | 0, l, g => some (l, g)
  | n + 1, l, g =>
    let gold := l.gold - 150
    let l1 : ArenaLocals :=
      if gold < 0 then { l with gold := gold, bust := true, bustCount := l.bustCount + 1 }
      else { l with gold := gold }
    let run := ArenaRun real_distribution g WinRate
    match incrResults l1.Results run.1 run.2.1 with
    | none => none
    | some Results =>
      let goldPrize := (ArenaReward run.1).Gold
      PlayArena.loop real_distribution WinRate n
        { l1 with Results := Results, gold := l1.gold + goldPrize } run.2.2

/-- The function `PlayArena` (lines 349-394): the gold returned and the globals
after the runs.  `Results` starts as 13 rows of 4 zeros. -/
def PlayArena (real_distribution : Nat → Rat) (g : Globals) (NumArenaRuns : Int)
    (StartingGold : Int) (WinRate : Rat) : Option (Int × Globals) :=
  let l0 : ArenaLocals :=
    { bust := false, bustCount := 0, gold := StartingGold,
      Results := List.replicate 13 (List.replicate 4 0) }
  match PlayArena.loop real_distribution WinRate NumArenaRuns.toNat l0 g with
  | none => none
  | some r => some (r.1.gold, r.2)

/-! ## Concrete inputs used by the closed statements -/

/-- A freshly created player with the given rating: the constructor followed
by the assignment `player.Rating = rating` of `SetupPopulation`. -/
def freshPlayer (rating : Rat) : HSPlayer := { HSPlayer.ctor with Rating := rating }

/-- A player on 45 stars whose last two games were wins. -/
def playerAt45 : HSPlayer :=
  { Wins := 30, Losses := 12, Stars := 45, WinStreak := 2, Rating := 1500,
    LegendAtWins := 0, LegendAtLosses := 0 }

/-- A player on 20 stars on a streak of four wins. -/
def playerAt20 : HSPlayer :=
  { Wins := 14, Losses := 3, Stars := 20, WinStreak := 4, Rating := 1500,
    LegendAtWins := 0, LegendAtLosses := 0 }

/-- A legend on 97 stars. -/
def legendAt97 : HSPlayer :=
  { Wins := 80, Losses := 20, Stars := 97, WinStreak := 1, Rating := 1800,
    LegendAtWins := 79, LegendAtLosses := 20 }

/-- Seventy-three wins in a row (against a default opponent). -/
def wins73 : List (Bool × HSPlayer) := List.replicate 73 (true, HSPlayer.ctor)

/-- A random source whose every variate is 0. -/
def drawsZero : Nat → Rat := fun _ => 0

/-- A stand-in for `pow(10, ·)` that is right at the argument 0, the only
argument it receives between players of equal rating. -/
def powTenOne : Rat → Rat := fun _ => 1

/-- A normal-variate source whose every variate is 1500. -/
def ratings1500 : Nat → Rat := fun _ => 1500

/-- The program state before anything has run: no players, nothing printed. -/
def initialGlobals : Globals :=
  { Population := [], TotalGamesPlayed := 0, real_generator := 0, cout := [] }

/-- Two freshly created players with identical rating 1500. -/
def twoFresh1500 : Globals :=
  { initialGlobals with Population := [freshPlayer 1500, freshPlayer 1500] }

/-- Two players with 0 and 10 stars. -/
def farApart : Globals :=
  { initialGlobals with
    Population := [freshPlayer 1500, { freshPlayer 1500 with Stars := 10 }] }

/-- A population of one freshly created player. -/
def onePlayer : Globals :=
  { initialGlobals with Population := [freshPlayer 1500] }

/-- The first of two fresh players after winning the first game. -/
def winnerOfFirst : HSPlayer :=
  { Wins := 1, Losses := 0, Stars := 1, WinStreak := 1, Rating := 1500,
    LegendAtWins := 0, LegendAtLosses := 0 }

/-- The second of two fresh players after losing the first game. -/
def loserOfFirst : HSPlayer :=
  { Wins := 0, Losses := 1, Stars := 0, WinStreak := 0, Rating := 1500,
    LegendAtWins := 0, LegendAtLosses := 0 }

/-- A player on 50 stars whose last two games were wins. -/
def playerAt50 : HSPlayer :=
  { Wins := 34, Losses := 15, Stars := 50, WinStreak := 2, Rating := 1500,
    LegendAtWins := 0, LegendAtLosses := 0 }

/-- Seventy-four wins in a row (against a default opponent). -/
def wins74 : List (Bool × HSPlayer) := List.replicate 74 (true, HSPlayer.ctor)

/-- The bound that ties a player's stars to the wins so far: the streak is not
negative, the stars plus the first two games of the current streak are at most
twice the wins, and the stars are at most the wins plus 22. -/
def winsInvariant (p : HSPlayer) : Prop :=
  0 ≤ p.WinStreak ∧ p.Stars + min p.WinStreak 2 ≤ 2 * p.Wins ∧ p.Stars ≤ p.Wins + 22

/-- Four players on 0, 2, 1 and 1 stars: seen from the first, the closest
other player is the third, ahead of the fourth at the same distance. -/
def closestThird : Globals :=
  { initialGlobals with
    Population := [freshPlayer 1500, { freshPlayer 1500 with Stars := 2 },
      { freshPlayer 1500 with Stars := 1 }, { freshPlayer 1500 with Stars := 1 }] }

/-- Four players on 5, 7, 5 and 5 stars: seen from the first, the scan meets a
zero-difference candidate at the third player and stops there. -/
def zeroThenCloser : Globals :=
  { initialGlobals with
    Population := [{ freshPlayer 1500 with Stars := 5 }, { freshPlayer 1500 with Stars := 7 },
      { freshPlayer 1500 with Stars := 5 }, { freshPlayer 1500 with Stars := 5 }] }

/-- A normal-variate source whose first variate is below 100, whose second is
above 2900 and whose others are 1500. -/
def ratingsWide : Nat → Rat := fun i => if i = 0 then 50 else if i = 1 then 3000 else 1500

/-- A random source whose every variate is 1. -/
def drawsOne : Nat → Rat := fun _ => 1

/-! ## The progression rule: field-wise description of `UpdatePlayer` -/

theorem UpdatePlayer_win_Stars (p opp : HSPlayer) :
    (p.UpdatePlayer true opp).Stars =
      if p.WinStreak + 1 > 2 ∧ p.Stars + 1 ≤ 45 then p.Stars + 2 else p.Stars + 1 := by
  unfold HSPlayer.UpdatePlayer HSPlayer.winBranch
  simp only [if_true]
  split_ifs <;> simp_all <;> omega

theorem UpdatePlayer_loss_Stars (p opp : HSPlayer) :
    (p.UpdatePlayer false opp).Stars =
      if p.Stars > 10 ∧ p.Stars ≠ 96 then p.Stars - 1 else p.Stars := by
  unfold HSPlayer.UpdatePlayer HSPlayer.lossBranch
  simp only [Bool.false_eq_true, if_false]
  split_ifs <;> simp_all

theorem UpdatePlayer_Wins (p : HSPlayer) (b : Bool) (opp : HSPlayer) :
    (p.UpdatePlayer b opp).Wins = if b then p.Wins + 1 else p.Wins := by
  unfold HSPlayer.UpdatePlayer HSPlayer.winBranch HSPlayer.lossBranch
  cases b <;> simp <;> split_ifs <;> simp

theorem UpdatePlayer_Losses (p : HSPlayer) (b : Bool) (opp : HSPlayer) :
    (p.UpdatePlayer b opp).Losses = if b then p.Losses else p.Losses + 1 := by
  unfold HSPlayer.UpdatePlayer HSPlayer.winBranch HSPlayer.lossBranch
  cases b <;> simp <;> split_ifs <;> simp

theorem UpdatePlayer_WinStreak (p : HSPlayer) (b : Bool) (opp : HSPlayer) :
    (p.UpdatePlayer b opp).WinStreak = if b then p.WinStreak + 1 else 0 := by
  unfold HSPlayer.UpdatePlayer HSPlayer.winBranch HSPlayer.lossBranch
  cases b <;> simp <;> split_ifs <;> simp

theorem UpdatePlayer_Rating (p : HSPlayer) (b : Bool) (opp : HSPlayer) :
    (p.UpdatePlayer b opp).Rating = p.Rating := by
  unfold HSPlayer.UpdatePlayer HSPlayer.winBranch HSPlayer.lossBranch
  cases b <;> simp <;> split_ifs <;> simp

theorem UpdatePlayer_LegendAt (p : HSPlayer) (b : Bool) (opp : HSPlayer) :
    ((p.UpdatePlayer b opp).LegendAtWins =
        if (p.UpdatePlayer b opp).Stars > 95 ∧ p.Stars ≤ 95 then (p.UpdatePlayer b opp).Wins
        else p.LegendAtWins) ∧
    ((p.UpdatePlayer b opp).LegendAtLosses =
        if (p.UpdatePlayer b opp).Stars > 95 ∧ p.Stars ≤ 95 then (p.UpdatePlayer b opp).Losses
        else p.LegendAtLosses) := by
  unfold HSPlayer.UpdatePlayer HSPlayer.winBranch HSPlayer.lossBranch
  cases b <;> simp <;> split_ifs <;> simp_all

theorem isLegend_iff (p : HSPlayer) : p.isLegend = true ↔ p.Stars > 95 := by
  unfold HSPlayer.isLegend; simp

theorem applyResults_cons (p : HSPlayer) (r : Bool × HSPlayer) (rs : List (Bool × HSPlayer)) :
    applyResults p (r :: rs) = applyResults (p.UpdatePlayer r.1 r.2) rs := rfl

theorem applyResults_append (p : HSPlayer) (rs rs2 : List (Bool × HSPlayer)) :
    applyResults p (rs ++ rs2) = applyResults (applyResults p rs) rs2 := by
  unfold applyResults
  rw [List.foldl_append]

theorem applyResults_snoc (p : HSPlayer) (rs : List (Bool × HSPlayer)) (r : Bool × HSPlayer) :
    applyResults p (rs ++ [r]) = (applyResults p rs).UpdatePlayer r.1 r.2 := by
  rw [applyResults_append]; rfl

theorem UpdatePlayer_legend_stays (p : HSPlayer) (b : Bool) (opp : HSPlayer)
    (h : p.Stars > 95) : (p.UpdatePlayer b opp).Stars > 95 := by
  cases b
  · rw [UpdatePlayer_loss_Stars]; split_ifs <;> omega
  · rw [UpdatePlayer_win_Stars]; split_ifs <;> omega

theorem applyResults_legend_stays (rs : List (Bool × HSPlayer)) :
    ∀ p : HSPlayer, p.Stars > 95 → (applyResults p rs).Stars > 95 := by
  induction rs with
  | nil => intro p h; exact h
  | cons r rs ih =>
    intro p h
    rw [applyResults_cons]
    exact ih _ (UpdatePlayer_legend_stays p r.1 r.2 h)

theorem UpdatePlayer_legend_keeps_snapshot (p : HSPlayer) (b : Bool) (opp : HSPlayer)
    (h : p.Stars > 95) :
    (p.UpdatePlayer b opp).LegendAtWins = p.LegendAtWins ∧
    (p.UpdatePlayer b opp).LegendAtLosses = p.LegendAtLosses := by
  have hL := UpdatePlayer_LegendAt p b opp
  rw [if_neg (by omega), if_neg (by omega)] at hL
  exact hL

theorem applyResults_legend_keeps_snapshot (rs : List (Bool × HSPlayer)) :
    ∀ p : HSPlayer, p.Stars > 95 →
      (applyResults p rs).LegendAtWins = p.LegendAtWins ∧
      (applyResults p rs).LegendAtLosses = p.LegendAtLosses := by
  induction rs with
  | nil => intro p _; exact ⟨rfl, rfl⟩
  | cons r rs ih =>
    intro p h
    rw [applyResults_cons]
    have h1 := UpdatePlayer_legend_keeps_snapshot p r.1 r.2 h
    have h2 := ih _ (UpdatePlayer_legend_stays p r.1 r.2 h)
    exact ⟨h2.1.trans h1.1, h2.2.trans h1.2⟩

theorem applyResults_fresh_not_legend (rating : Rat) (rs : List (Bool × HSPlayer)) :
    (applyResults (freshPlayer rating) rs).Stars ≤ 95 →
      (applyResults (freshPlayer rating) rs).LegendAtWins = 0 ∧
      (applyResults (freshPlayer rating) rs).LegendAtLosses = 0 := by
  induction rs using List.reverseRecOn with
  | nil => intro _; exact ⟨rfl, rfl⟩
  | append_singleton rs r ih =>
    intro h
    rw [applyResults_snoc] at h ⊢
    have hprev : (applyResults (freshPlayer rating) rs).Stars ≤ 95 := by
      by_contra hc
      have hstay := UpdatePlayer_legend_stays _ r.1 r.2 (not_le.mp hc)
      omega
    have h0 := ih hprev
    have hL := UpdatePlayer_LegendAt (applyResults (freshPlayer rating) rs) r.1 r.2
    rw [if_neg (by omega), if_neg (by omega)] at hL
    exact ⟨hL.1.trans h0.1, hL.2.trans h0.2⟩

theorem applyResults_counters_mono (rs : List (Bool × HSPlayer)) :
    ∀ p : HSPlayer,
      p.Wins ≤ (applyResults p rs).Wins ∧ p.Losses ≤ (applyResults p rs).Losses := by
  induction rs with
  | nil => intro p; exact ⟨le_refl _, le_refl _⟩
  | cons r rs ih =>
    intro p
    rw [applyResults_cons]
    have h := ih (p.UpdatePlayer r.1 r.2)
    rw [UpdatePlayer_Wins, UpdatePlayer_Losses] at h
    constructor
    · have h1 := h.1; split_ifs at h1 <;> omega
    · have h2 := h.2; split_ifs at h2 <;> omega

/-! ## The rank table -/

theorem ranks_pairwise : ranks.Pairwise (fun a b => b ≤ a) := by
  unfold ranks
  decide

theorem StarsToRank_of_mid (s : Int) (h0 : 0 ≤ s) (h1 : s ≤ 95) :
    StarsToRank s =
      ranks.get ⟨s.toNat, by have hlen : ranks.length = 107 := rfl; omega⟩ := by
  unfold StarsToRank
  rw [dif_neg (by omega), dif_neg (by omega)]

/-! ## Matchmaking, the single tick and the ladder loop -/

theorem mod_step (a k n : Nat) : ((a + 1) % n + k) % n = (a + (k + 1)) % n := by
  rw [Nat.mod_add_mod]; congr 1; omega

theorem cyclic_ne (playerNo k n : Nat) (h : playerNo < n) (hk1 : 1 ≤ k) (hk2 : k ≤ n - 1) :
    (playerNo + k) % n ≠ playerNo := by
  intro hEq
  rcases Nat.lt_or_ge (playerNo + k) n with hlt | hge
  · rw [Nat.mod_eq_of_lt hlt] at hEq; omega
  · have hsub : (playerNo + k) % n = playerNo + k - n := by
      rw [Nat.mod_eq_sub_mod hge, Nat.mod_eq_of_lt (by omega)]
    omega

theorem scanLoop_spec (Population : List HSPlayer) (hpop : 0 < Population.length)
    (p1 : HSPlayer) (n : Nat) :
    ∀ (p2Pos : Nat) (pos diff : Int),
      scanLoop Population hpop p1 n p2Pos pos diff = (pos, diff) ∨
      ∃ (k : Nat) (m : HSPlayer), 1 ≤ k ∧ k ≤ n ∧
        Population[(p2Pos + k) % Population.length]? = some m ∧
        scanLoop Population hpop p1 n p2Pos pos diff =
          ((((p2Pos + k) % Population.length : Nat) : Int), |p1.Stars - m.Stars|) ∧
        |p1.Stars - m.Stars| < diff := by
  induction n with
  | zero => intro p2Pos pos diff; left; rfl
  | succ n ih =>
    intro p2Pos pos diff
    have hq : (p2Pos + 1) % Population.length < Population.length := Nat.mod_lt _ hpop
    have hm : Population[(p2Pos + 1) % Population.length]? =
        some (Population.get ⟨(p2Pos + 1) % Population.length, hq⟩) := by
      simp [List.getElem?_eq_getElem hq]
    unfold scanLoop
    simp only []
    by_cases hd : |p1.Stars - (Population.get ⟨(p2Pos + 1) % Population.length, hq⟩).Stars| < diff
    · rw [if_pos hd]
      simp only []
      by_cases hz : |p1.Stars - (Population.get ⟨(p2Pos + 1) % Population.length, hq⟩).Stars| = 0
      · rw [if_pos hz]
        right
        exact ⟨1, _, le_refl _, by omega, hm, rfl, hd⟩
      · rw [if_neg hz]
        rcases ih ((p2Pos + 1) % Population.length)
            (((p2Pos + 1) % Population.length : Nat) : Int)
            |p1.Stars - (Population.get ⟨(p2Pos + 1) % Population.length, hq⟩).Stars| with h | h
        · right
          exact ⟨1, _, le_refl _, by omega, hm, h, hd⟩
        · obtain ⟨k, m, hk1, hk2, hget, hres, hlt⟩ := h
          right
          rw [mod_step] at hget hres
          exact ⟨k + 1, m, by omega, by omega, hget, hres, lt_trans hlt hd⟩
    · rw [if_neg hd]
      simp only []
      by_cases hz : diff = 0
      · rw [if_pos hz]; left; rfl
      · rw [if_neg hz]
        rcases ih ((p2Pos + 1) % Population.length) pos diff with h | h
        · left; exact h
        · obtain ⟨k, m, hk1, hk2, hget, hres, hlt⟩ := h
          right
          rw [mod_step] at hget hres
          exact ⟨k + 1, m, by omega, by omega, hget, hres, hlt⟩

theorem findOpponent_opponent (Population : List HSPlayer) (playerNo : Nat)
    (h : playerNo < Population.length) (pos : Int)
    (hres : findOpponent Population playerNo h = Matchmaking.opponent pos) :
    (Population.get ⟨playerNo, h⟩).Stars ≤ 95 ∧
    ∃ (j : Nat) (m : HSPlayer), pos = (j : Int) ∧ j < Population.length ∧ j ≠ playerNo ∧
      Population[j]? = some m ∧ |(Population.get ⟨playerNo, h⟩).Stars - m.Stars| ≤ 3 := by
  unfold findOpponent at hres
  simp only [] at hres
  split_ifs at hres with hleg h1000 h3
  have hpop : 0 < Population.length := Nat.lt_of_le_of_lt (Nat.zero_le _) h
  refine ⟨by simpa [HSPlayer.isLegend] using hleg, ?_⟩
  injection hres with hres
  rcases scanLoop_spec Population hpop (Population.get ⟨playerNo, h⟩)
      (Population.length - 1) playerNo (-1) 1000 with hs | hs
  · rw [hs] at h1000; exact absurd rfl h1000
  · obtain ⟨k, m, hk1, hk2, hget, hscan, _⟩ := hs
    rw [hscan] at hres h3
    simp only [] at hres h3
    exact ⟨(playerNo + k) % Population.length, m, hres.symm, Nat.mod_lt _ hpop,
      cyclic_ne playerNo k _ h hk1 hk2, hget, not_lt.mp h3⟩

theorem findOpponent_none_close (Population : List HSPlayer) (playerNo : Nat)
    (h : playerNo < Population.length)
    (hfar : ∀ (j : Nat) (m : HSPlayer), j ≠ playerNo → Population[j]? = some m →
      3 < |(Population.get ⟨playerNo, h⟩).Stars - m.Stars|) :
    ∀ pos : Int, findOpponent Population playerNo h ≠ Matchmaking.opponent pos := by
  intro pos hres
  obtain ⟨_, j, m, _, _, hne, hget, hle⟩ := findOpponent_opponent Population playerNo h pos hres
  have := hfar j m hne hget
  omega

theorem playMatch_eq (rd : Nat → Rat) (pt : Rat → Rat) (g : Globals) (playerNo j : Nat)
    (p1 p2 : HSPlayer) (hne : j ≠ playerNo)
    (h1 : g.Population[playerNo]? = some p1) (h2 : g.Population[j]? = some p2) :
    playMatch rd pt g playerNo (j : Int) =
      some { g with
        Population := (g.Population.set playerNo
            (p1.UpdatePlayer (decide (rd g.real_generator < expP1 pt p1 p2)) p2)).set j
          (p2.UpdatePlayer (!decide (rd g.real_generator < expP1 pt p1 p2))
            (p1.UpdatePlayer (decide (rd g.real_generator < expP1 pt p1 p2)) p2))
        real_generator := g.real_generator + 1 } := by
  unfold playMatch
  rw [if_neg (by omega)]
  simp only [Int.toNat_ofNat, h1, h2]
  have h3 : (g.Population.set playerNo
      (p1.UpdatePlayer (decide (rd g.real_generator < expP1 pt p1 p2)) p2))[j]? = some p2 := by
    rw [List.getElem?_set_ne (Ne.symm hne)]; exact h2
  simp only [h3]

theorem sum_map_set (f : HSPlayer → Int) (l : List HSPlayer) :
    ∀ (i : Nat) (a b : HSPlayer), l[i]? = some b →
      ((l.set i a).map f).sum = (l.map f).sum - f b + f a := by
  induction l with
  | nil => intro i a b h; simp at h
  | cons x xs ih =>
    intro i a b h
    cases i with
    | zero =>
      simp only [List.getElem?_cons_zero, Option.some.injEq] at h
      subst h
      simp only [List.set_cons_zero, List.map_cons, List.sum_cons]
      omega
    | succ i =>
      simp only [List.getElem?_cons_succ] at h
      simp only [List.set_cons_succ, List.map_cons, List.sum_cons]
      rw [ih i a b h]
      omega

theorem UpdatePlayer_Stars_le (p : HSPlayer) (b : Bool) (opp : HSPlayer) :
    (p.UpdatePlayer b opp).Stars ≤ max (p.Stars + 1) 46 := by
  cases b
  · rw [UpdatePlayer_loss_Stars]; split_ifs <;> omega
  · rw [UpdatePlayer_win_Stars]; split_ifs <;> omega

theorem UpdatePlayer_WinsLosses (p : HSPlayer) (b : Bool) (opp : HSPlayer) :
    (p.UpdatePlayer b opp).Wins + (p.UpdatePlayer b opp).Losses = p.Wins + p.Losses + 1 := by
  rw [UpdatePlayer_Wins, UpdatePlayer_Losses]
  cases b <;> simp <;> omega

theorem producesGame_of_opponent (g : Globals) (playerNo : Nat)
    (h : playerNo < g.Population.length) (pos : Int)
    (hres : findOpponent g.Population playerNo h = Matchmaking.opponent pos) :
    producesGame g playerNo = true := by
  unfold producesGame
  rw [dif_pos h, hres]

theorem producesGame_of_skip (g : Globals) (playerNo : Nat)
    (h : playerNo < g.Population.length)
    (hres : ∀ pos : Int, findOpponent g.Population playerNo h ≠ Matchmaking.opponent pos) :
    producesGame g playerNo = false := by
  unfold producesGame
  rw [dif_pos h]
  cases hf : findOpponent g.Population playerNo h with
  | opponent pos => exact absurd hf (hres pos)
  | _ => rfl

theorem PlaySingleGame_game (rd : Nat → Rat) (pt : Rat → Rat) (g : Globals) (playerNo : Nat)
    (h : playerNo < g.Population.length) (pos : Int)
    (hres : findOpponent g.Population playerNo h = Matchmaking.opponent pos) :
    ∃ (j : Nat) (p1 p2 : HSPlayer), pos = (j : Int) ∧ j < g.Population.length ∧ j ≠ playerNo ∧
      g.Population[playerNo]? = some p1 ∧ g.Population[j]? = some p2 ∧
      p1.Stars ≤ 95 ∧ |p1.Stars - p2.Stars| ≤ 3 ∧
      PlaySingleGame rd pt g playerNo =
        some { g with
          Population := (g.Population.set playerNo
              (p1.UpdatePlayer (decide (rd g.real_generator < expP1 pt p1 p2)) p2)).set j
            (p2.UpdatePlayer (!decide (rd g.real_generator < expP1 pt p1 p2))
              (p1.UpdatePlayer (decide (rd g.real_generator < expP1 pt p1 p2)) p2))
          real_generator := g.real_generator + 1 } := by
  obtain ⟨hS, j, p2, hpos, hj, hne, hget, hdiff⟩ :=
    findOpponent_opponent g.Population playerNo h pos hres
  have h1 : g.Population[playerNo]? = some (g.Population.get ⟨playerNo, h⟩) := by
    simp [List.getElem?_eq_getElem h]
  refine ⟨j, _, p2, hpos, hj, hne, h1, hget, hS, hdiff, ?_⟩
  unfold PlaySingleGame
  rw [dif_pos h, hres]
  simp only []
  rw [hpos]
  exact playMatch_eq rd pt g playerNo j _ p2 hne h1 hget

theorem PlaySingleGame_skip (rd : Nat → Rat) (pt : Rat → Rat) (g : Globals) (playerNo : Nat)
    (h : playerNo < g.Population.length)
    (hres : ∀ pos : Int, findOpponent g.Population playerNo h ≠ Matchmaking.opponent pos) :
    ∃ g1 : Globals, PlaySingleGame rd pt g playerNo = some g1 ∧
      g1.Population = g.Population ∧ g1.TotalGamesPlayed = g.TotalGamesPlayed ∧
      g1.real_generator = g.real_generator := by
  unfold PlaySingleGame
  rw [dif_pos h]
  cases hf : findOpponent g.Population playerNo h with
  | opponent pos => exact absurd hf (hres pos)
  | legendSkip => exact ⟨_, rfl, rfl, rfl, rfl⟩
  | noMatchFound => exact ⟨_, rfl, rfl, rfl, rfl⟩
  | noCloseMatch => exact ⟨_, rfl, rfl, rfl, rfl⟩

theorem PlaySingleGame_effect (rd : Nat → Rat) (pt : Rat → Rat) (g : Globals) (playerNo : Nat)
    (h : playerNo < g.Population.length) :
    ∃ g1 : Globals, PlaySingleGame rd pt g playerNo = some g1 ∧
      g1.Population.length = g.Population.length ∧
      g1.TotalGamesPlayed = g.TotalGamesPlayed ∧
      g1.real_generator = g.real_generator + (if producesGame g playerNo then 1 else 0) ∧
      totalWinsLosses g1.Population =
        totalWinsLosses g.Population + (if producesGame g playerNo then 2 else 0) ∧
      ((∀ p ∈ g.Population, p.Stars ≤ 99) → ∀ p ∈ g1.Population, p.Stars ≤ 99) := by
  by_cases hop : ∃ pos : Int, findOpponent g.Population playerNo h = Matchmaking.opponent pos
  · obtain ⟨pos, hres⟩ := hop
    obtain ⟨j, p1, p2, _, hj, hne, h1, h2, hS, hdiff, hplay⟩ :=
      PlaySingleGame_game rd pt g playerNo h pos hres
    rw [producesGame_of_opponent g playerNo h pos hres]
    refine ⟨_, hplay, by simp, rfl, by simp, ?_, ?_⟩
    · have h3 : (g.Population.set playerNo
          (p1.UpdatePlayer (decide (rd g.real_generator < expP1 pt p1 p2)) p2))[j]? = some p2 := by
        rw [List.getElem?_set_ne (Ne.symm hne)]; exact h2
      simp only [totalWinsLosses, if_true]
      rw [sum_map_set _ _ j _ p2 h3, sum_map_set _ _ playerNo _ p1 h1]
      simp only [UpdatePlayer_WinsLosses]
      omega
    · intro hb p hp
      simp only [] at hp
      have hb1 := hb p1 (List.getElem?_mem h1)
      have hb2 := hb p2 (List.getElem?_mem h2)
      have hd := abs_le.mp hdiff
      rcases List.mem_or_eq_of_mem_set hp with hp | hp
      · rcases List.mem_or_eq_of_mem_set hp with hp | hp
        · exact hb p hp
        · rw [hp]
          have := UpdatePlayer_Stars_le p1 (decide (rd g.real_generator < expP1 pt p1 p2)) p2
          omega
      · rw [hp]
        have := UpdatePlayer_Stars_le p2 (!decide (rd g.real_generator < expP1 pt p1 p2))
          (p1.UpdatePlayer (decide (rd g.real_generator < expP1 pt p1 p2)) p2)
        omega
  · have hres : ∀ pos : Int, findOpponent g.Population playerNo h ≠ Matchmaking.opponent pos :=
      fun pos hp => hop ⟨pos, hp⟩
    obtain ⟨g1, hg1, hpop, htgp, hrg⟩ := PlaySingleGame_skip rd pt g playerNo h hres
    rw [producesGame_of_skip g playerNo h hres]
    refine ⟨g1, hg1, by rw [hpop], htgp, by simpa using hrg, by simp [hpop], ?_⟩
    intro hb p hp
    rw [hpop] at hp
    exact hb p hp

theorem gameTicks_succ (rd : Nat → Rat) (pt : Rat → Rat) (n playerNo : Nat) (g g1 : Globals)
    (h : PlaySingleGame rd pt g playerNo = some g1) :
    gameTicks rd pt (n + 1) playerNo g =
      (if producesGame g playerNo then 1 else 0) +
        gameTicks rd pt n ((playerNo + 1) % g1.Population.length)
          { g1 with TotalGamesPlayed := g1.TotalGamesPlayed + 1 } := by
  rw [gameTicks, h]

theorem PlayGames_loop_succ (rd : Nat → Rat) (pt : Rat → Rat) (n playerNo : Nat)
    (g g1 : Globals) (h : PlaySingleGame rd pt g playerNo = some g1)
    (hpos : 0 < g1.Population.length) :
    PlayGames.loop rd pt (n + 1) playerNo g =
      PlayGames.loop rd pt n ((playerNo + 1) % g1.Population.length)
        { g1 with TotalGamesPlayed := g1.TotalGamesPlayed + 1 } := by
  rw [PlayGames.loop, h]
  simp only []
  rw [if_neg (by omega)]

theorem PlayGames_loop_effect (rd : Nat → Rat) (pt : Rat → Rat) (n : Nat) :
    ∀ (playerNo : Nat) (g : Globals), playerNo < g.Population.length →
      ∃ g2 : Globals, PlayGames.loop rd pt n playerNo g = some g2 ∧
        g2.Population.length = g.Population.length ∧
        g2.TotalGamesPlayed = g.TotalGamesPlayed + n ∧
        g2.real_generator = g.real_generator + gameTicks rd pt n playerNo g ∧
        totalWinsLosses g2.Population =
          totalWinsLosses g.Population + 2 * gameTicks rd pt n playerNo g ∧
        gameTicks rd pt n playerNo g ≤ n ∧
        ((∀ p ∈ g.Population, p.Stars ≤ 99) → ∀ p ∈ g2.Population, p.Stars ≤ 99) := by
  induction n with
  | zero =>
    intro playerNo g _
    exact ⟨g, rfl, rfl, by simp, by simp [gameTicks], by simp [gameTicks], by simp [gameTicks],
      fun hb => hb⟩
  | succ n ih =>
    intro playerNo g h
    obtain ⟨g1, hg1, hlen, htgp, hrg, hsum, hb⟩ := PlaySingleGame_effect rd pt g playerNo h
    have hpos : 0 < g1.Population.length := by omega
    have hnext : (playerNo + 1) % g1.Population.length <
        ({ g1 with TotalGamesPlayed := g1.TotalGamesPlayed + 1 } : Globals).Population.length :=
      Nat.mod_lt _ hpos
    obtain ⟨g2, hg2, hlen2, htgp2, hrg2, hsum2, hticks2, hb2⟩ :=
      ih ((playerNo + 1) % g1.Population.length)
        { g1 with TotalGamesPlayed := g1.TotalGamesPlayed + 1 } hnext
    rw [gameTicks_succ rd pt n playerNo g g1 hg1, PlayGames_loop_succ rd pt n playerNo g g1 hg1 hpos]
    simp only [] at hlen2 htgp2 hrg2 hsum2
    refine ⟨g2, hg2, ?_, ?_, ?_, ?_, ?_, ?_⟩
    · rw [hlen2]; exact hlen
    · rw [htgp2, htgp]; push_cast; omega
    · rw [hrg2, hrg]; omega
    · rw [hsum2, hsum]
      split_ifs <;> push_cast <;> omega
    · split_ifs <;> omega
    · intro hbg
      exact hb2 (hb hbg)

theorem PlayGames_effect (rd : Nat → Rat) (pt : Rat → Rat) (g : Globals) (n : Nat)
    (hpop : 0 < g.Population.length) :
    ∃ g2 : Globals, PlayGames rd pt g (n : Int) = some g2 ∧
      g2.Population.length = g.Population.length ∧
      g2.TotalGamesPlayed = g.TotalGamesPlayed + n ∧
      g2.real_generator = g.real_generator + gameTicks rd pt n 0 g ∧
      totalWinsLosses g2.Population = totalWinsLosses g.Population + 2 * gameTicks rd pt n 0 g ∧
      gameTicks rd pt n 0 g ≤ n ∧
      ((∀ p ∈ g.Population, p.Stars ≤ 99) → ∀ p ∈ g2.Population, p.Stars ≤ 99) := by
  obtain ⟨g2, hg2, h1, h2, h3, h4, h5, h6⟩ := PlayGames_loop_effect rd pt n 0 g hpop
  refine ⟨{ g2 with cout := g2.cout ++ ["Played " ++ toString g2.TotalGamesPlayed ++ " games"] },
    ?_, h1, h2, h3, h4, h5, h6⟩
  unfold PlayGames
  rw [Int.toNat_ofNat, hg2]

theorem SetupPopulation_loop_spec (rm : Nat → Rat) (n : Nat) :
    ∀ (i : Nat) (pop : List HSPlayer),
      (SetupPopulation.loop rm n i pop).length = pop.length + n ∧
      ∀ p ∈ SetupPopulation.loop rm n i pop, p ∈ pop ∨ ∃ r : Rat, p = freshPlayer r := by
  induction n with
  | zero => intro i pop; exact ⟨rfl, fun p hp => Or.inl hp⟩
  | succ n ih =>
    intro i pop
    unfold SetupPopulation.loop
    simp only []
    obtain ⟨hlen, hmem⟩ := ih (i + 1) (pop ++ [{ HSPlayer.ctor with Rating :=
      if (if rm i < 100 then 100 else rm i) > 2900 then 2900
      else (if rm i < 100 then 100 else rm i) }])
    refine ⟨by rw [hlen]; simp; omega, ?_⟩
    intro p hp
    rcases hmem p hp with h | h
    · rcases List.mem_append.mp h with h | h
      · exact Or.inl h
      · right
        rw [List.mem_singleton] at h
        exact ⟨_, h⟩
    · exact Or.inr h

/-! ## Claims about the progression rule and the rank table -/

/-- C1, evaluated on the code: a player on 45 stars whose win brings the streak
to 3 has a streak above 2 and at most 45 stars before the update, and stands at
rank 10 after the base increment, not yet at rank 5; the win still raises the
stars by 1 only, not by 2, because line 58 tests `Stars <= 45` on the
incremented value 46. -/
theorem win_at_45_stars_gains_one :
    playerAt45.WinStreak + 1 > 2 ∧ playerAt45.Stars ≤ 45 ∧
    (playerAt45.UpdatePlayer true HSPlayer.ctor).Stars = playerAt45.Stars + 1 ∧
    (playerAt45.UpdatePlayer true HSPlayer.ctor).Stars ≠ playerAt45.Stars + 2 ∧
    StarsToRank (playerAt45.Stars + 1) = 10 ∧
    StarsToRank (playerAt45.Stars + 1) > 5 := by
  decide

/-- C2: a loss adds exactly 1 to the losses, resets the win streak to 0,
leaves the wins unchanged, and takes exactly 1 star when the stars before the
loss are above 10 and different from 96, leaving the stars unchanged otherwise;
in particular no star is lost from 10 or fewer, nor from exactly 96. -/
theorem loss_effect (p opp : HSPlayer) :
    (p.UpdatePlayer false opp).Losses = p.Losses + 1 ∧
    (p.UpdatePlayer false opp).WinStreak = 0 ∧
    (p.UpdatePlayer false opp).Wins = p.Wins ∧
    (p.Stars > 10 → p.Stars ≠ 96 → (p.UpdatePlayer false opp).Stars = p.Stars - 1) ∧
    (¬ (p.Stars > 10 ∧ p.Stars ≠ 96) → (p.UpdatePlayer false opp).Stars = p.Stars) ∧
    (p.Stars ≤ 10 → (p.UpdatePlayer false opp).Stars = p.Stars) ∧
    (p.Stars = 96 → (p.UpdatePlayer false opp).Stars = p.Stars) := by
  rw [UpdatePlayer_Losses, UpdatePlayer_WinStreak, UpdatePlayer_Wins, UpdatePlayer_loss_Stars]
  refine ⟨by simp, by simp, by simp, ?_, ?_, ?_, ?_⟩
  · intro h1 h2; rw [if_pos ⟨h1, h2⟩]
  · intro h; rw [if_neg h]
  · intro h; rw [if_neg (by omega)]
  · intro h; rw [if_neg (by omega)]

/-- An instance of the preceding theorem: a loss on 20 stars leaves 19. -/
theorem loss_effect_witness :
    playerAt20.Stars > 10 ∧ playerAt20.Stars ≠ 96 ∧
    (playerAt20.UpdatePlayer false HSPlayer.ctor).Stars = playerAt20.Stars - 1 :=
  ⟨by decide, by decide,
    (loss_effect playerAt20 HSPlayer.ctor).2.2.2.1 (by decide) (by decide)⟩

/-- C3: legend status is absorbing.  From a state with more than 95 stars,
`UpdatePlayer` with either outcome yields a state with more than 95 stars, and
so does every sequence of match results. -/
theorem legend_absorbing (p : HSPlayer) (h : p.Stars > 95) :
    (∀ (isWinner : Bool) (opp : HSPlayer),
      (p.UpdatePlayer isWinner opp).Stars > 95 ∧
      (p.UpdatePlayer isWinner opp).isLegend = true) ∧
    (∀ rs : List (Bool × HSPlayer),
      (applyResults p rs).Stars > 95 ∧ (applyResults p rs).isLegend = true) := by
  constructor
  · intro b opp
    have hs := UpdatePlayer_legend_stays p b opp h
    exact ⟨hs, (isLegend_iff _).mpr hs⟩
  · intro rs
    have hs := applyResults_legend_stays rs p h
    exact ⟨hs, (isLegend_iff _).mpr hs⟩

/-- An instance of the preceding theorem: a legend on 97 stars who loses twice is
still a legend. -/
theorem legend_absorbing_witness :
    legendAt97.Stars > 95 ∧
    (applyResults legendAt97 [(false, HSPlayer.ctor), (false, HSPlayer.ctor)]).Stars > 95 :=
  ⟨by decide,
    ((legend_absorbing legendAt97 (by decide)).2
      [(false, HSPlayer.ctor), (false, HSPlayer.ctor)]).1⟩

/-- C4: for every sequence of match results applied to a freshly constructed
player, the legend snapshot (`LegendAtWins`, `LegendAtLosses`) is 0 as long as
the stars have not exceeded 95; the first update after which the stars exceed
95 sets it to the wins and losses as of that update; every later update keeps
it, while wins and losses may only grow.  A player on 95 stars who wins becomes
legend with `LegendAtWins` equal to the wins. -/
theorem legend_snapshot_set_once (rating : Rat) (rs : List (Bool × HSPlayer)) :
    ((applyResults (freshPlayer rating) rs).Stars ≤ 95 →
      (applyResults (freshPlayer rating) rs).LegendAtWins = 0 ∧
      (applyResults (freshPlayer rating) rs).LegendAtLosses = 0) ∧
    (∀ r : Bool × HSPlayer, (applyResults (freshPlayer rating) rs).Stars ≤ 95 →
      (applyResults (freshPlayer rating) (rs ++ [r])).Stars > 95 →
      (applyResults (freshPlayer rating) (rs ++ [r])).LegendAtWins =
        (applyResults (freshPlayer rating) (rs ++ [r])).Wins ∧
      (applyResults (freshPlayer rating) (rs ++ [r])).LegendAtLosses =
        (applyResults (freshPlayer rating) (rs ++ [r])).Losses) ∧
    ((applyResults (freshPlayer rating) rs).Stars > 95 → ∀ later : List (Bool × HSPlayer),
      (applyResults (freshPlayer rating) (rs ++ later)).LegendAtWins =
        (applyResults (freshPlayer rating) rs).LegendAtWins ∧
      (applyResults (freshPlayer rating) (rs ++ later)).LegendAtLosses =
        (applyResults (freshPlayer rating) rs).LegendAtLosses ∧
      (applyResults (freshPlayer rating) rs).Wins ≤
        (applyResults (freshPlayer rating) (rs ++ later)).Wins ∧
      (applyResults (freshPlayer rating) rs).Losses ≤
        (applyResults (freshPlayer rating) (rs ++ later)).Losses) ∧
    (∀ p opp : HSPlayer, p.Stars = 95 →
      (p.UpdatePlayer true opp).isLegend = true ∧
      (p.UpdatePlayer true opp).LegendAtWins = (p.UpdatePlayer true opp).Wins ∧
      (p.UpdatePlayer true opp).LegendAtLosses = (p.UpdatePlayer true opp).Losses) := by
  refine ⟨applyResults_fresh_not_legend rating rs, ?_, ?_, ?_⟩
  · intro r hle hgt
    rw [applyResults_snoc] at hgt ⊢
    have hL := UpdatePlayer_LegendAt (applyResults (freshPlayer rating) rs) r.1 r.2
    rw [if_pos ⟨hgt, hle⟩, if_pos ⟨hgt, hle⟩] at hL
    exact hL
  · intro h later
    rw [applyResults_append]
    have h1 := applyResults_legend_keeps_snapshot later _ h
    have h2 := applyResults_counters_mono later (applyResults (freshPlayer rating) rs)
    exact ⟨h1.1, h1.2, h2.1, h2.2⟩
  · intro p opp h
    have hS : (p.UpdatePlayer true opp).Stars > 95 := by
      rw [UpdatePlayer_win_Stars]; split_ifs <;> omega
    have hL := UpdatePlayer_LegendAt p true opp
    rw [if_pos ⟨hS, by omega⟩, if_pos ⟨hS, by omega⟩] at hL
    exact ⟨(isLegend_iff _).mpr hS, hL.1, hL.2⟩

set_option maxRecDepth 100000 in
/-- An instance of the preceding theorem: a fresh player is on 95 stars after
73 wins in a row, and the 74th win makes the player legend with
`LegendAtWins = 74`, the wins at that update. -/
theorem legend_snapshot_set_once_witness :
    (applyResults (freshPlayer 1500) wins73).Stars ≤ 95 ∧
    (applyResults (freshPlayer 1500) (wins73 ++ [(true, HSPlayer.ctor)])).Stars > 95 ∧
    (applyResults (freshPlayer 1500) (wins73 ++ [(true, HSPlayer.ctor)])).Wins = 74 ∧
    (applyResults (freshPlayer 1500) (wins73 ++ [(true, HSPlayer.ctor)])).LegendAtWins = 74 := by
  have h1 : (applyResults (freshPlayer 1500) wins73).Stars ≤ 95 := by decide
  have h2 : (applyResults (freshPlayer 1500) (wins73 ++ [(true, HSPlayer.ctor)])).Stars > 95 := by
    decide
  have h3 : (applyResults (freshPlayer 1500) (wins73 ++ [(true, HSPlayer.ctor)])).Wins = 74 := by
    decide
  have h := ((legend_snapshot_set_once 1500 wins73).2.1 (true, HSPlayer.ctor) h1 h2).1
  exact ⟨h1, h2, h3, h.trans h3⟩

/-- C9: `StarsToRank` is non-increasing on the stars 0 to 95, is 25 for every
negative argument and 0 for every argument above 95. -/
theorem StarsToRank_monotone_clamped :
    (∀ s t : Int, 0 ≤ s → s ≤ t → t ≤ 95 → StarsToRank t ≤ StarsToRank s) ∧
    (∀ t : Int, t < 0 → StarsToRank t = 25) ∧
    (∀ t : Int, t > 95 → StarsToRank t = 0) := by
  refine ⟨?_, ?_, ?_⟩
  · intro s t h0 hst ht
    rw [StarsToRank_of_mid s h0 (by omega), StarsToRank_of_mid t (by omega) ht]
    rcases Nat.lt_or_ge s.toNat t.toNat with hlt | hge
    · exact List.pairwise_iff_get.mp ranks_pairwise _ _ (by simpa using hlt)
    · have hEq : s = t := by omega
      subst hEq
      exact le_refl _
  · intro t ht
    unfold StarsToRank
    rw [dif_pos ht]
  · intro t ht
    unfold StarsToRank
    rw [dif_neg (by omega), dif_pos ht]

/-- An instance of the preceding theorem: the rank at 46 stars is 10,
not above the rank 11 at 45 stars. -/
theorem StarsToRank_monotone_clamped_witness :
    StarsToRank 45 = 11 ∧ StarsToRank 46 = 10 ∧ StarsToRank 46 ≤ StarsToRank 45 :=
  ⟨by decide, by decide,
    StarsToRank_monotone_clamped.1 45 46 (by decide) (by decide) (by decide)⟩

/-! ## Claims about matchmaking, the tick and the ladder loop -/

theorem producesGame_true_iff (g : Globals) (playerNo : Nat)
    (h : playerNo < g.Population.length) :
    producesGame g playerNo = true ↔
      ∃ pos : Int, findOpponent g.Population playerNo h = Matchmaking.opponent pos := by
  constructor
  · intro hp
    by_contra hno
    have hskip := producesGame_of_skip g playerNo h (fun pos hpos => hno ⟨pos, hpos⟩)
    rw [hskip] at hp
    exact Bool.false_ne_true hp
  · rintro ⟨pos, hpos⟩
    exact producesGame_of_opponent g playerNo h pos hpos

/-- C5: for every population and every valid focal index (in particular every
population of at least 2 players and every focal player who is not legend), a
tick that plays a game plays it against an opponent whose index differs from
the focal index and whose stars differ from the focal player's stars, before
the game, by at most 3; and when every other player's stars differ from the
focal player's by more than 3, the tick plays no game: it returns with the
population and the random source unchanged. -/
theorem opponent_distinct_and_close (rd : Nat → Rat) (pt : Rat → Rat) (g : Globals)
    (playerNo : Nat) (h : playerNo < g.Population.length) :
    (producesGame g playerNo = true →
      ∃ (j : Nat) (p1 p2 : HSPlayer),
        findOpponent g.Population playerNo h = Matchmaking.opponent (j : Int) ∧
        j < g.Population.length ∧ j ≠ playerNo ∧
        g.Population[playerNo]? = some p1 ∧ g.Population[j]? = some p2 ∧
        |p1.Stars - p2.Stars| ≤ 3 ∧
        PlaySingleGame rd pt g playerNo =
          some { g with
            Population := (g.Population.set playerNo
                (p1.UpdatePlayer (decide (rd g.real_generator < expP1 pt p1 p2)) p2)).set j
              (p2.UpdatePlayer (!decide (rd g.real_generator < expP1 pt p1 p2))
                (p1.UpdatePlayer (decide (rd g.real_generator < expP1 pt p1 p2)) p2))
            real_generator := g.real_generator + 1 }) ∧
    ((∀ (j : Nat) (m : HSPlayer), j ≠ playerNo → g.Population[j]? = some m →
        3 < |(g.Population.get ⟨playerNo, h⟩).Stars - m.Stars|) →
      producesGame g playerNo = false ∧
      ∃ g1 : Globals, PlaySingleGame rd pt g playerNo = some g1 ∧
        g1.Population = g.Population ∧ g1.real_generator = g.real_generator) := by
  constructor
  · intro hp
    obtain ⟨pos, hpos⟩ := (producesGame_true_iff g playerNo h).mp hp
    obtain ⟨j, p1, p2, hj, hlt, hne, h1, h2, _, hdiff, hplay⟩ :=
      PlaySingleGame_game rd pt g playerNo h pos hpos
    exact ⟨j, p1, p2, hj ▸ hpos, hlt, hne, h1, h2, hdiff, hplay⟩
  · intro hfar
    have hno := findOpponent_none_close g.Population playerNo h hfar
    obtain ⟨g1, hg1, hpop, _, hrg⟩ := PlaySingleGame_skip rd pt g playerNo h hno
    exact ⟨producesGame_of_skip g playerNo h hno, g1, hg1, hpop, hrg⟩

/-- An instance of the preceding theorem: between two fresh players the
tick plays the game against index 1; between players on 0 and 10 stars it
plays none. -/
theorem opponent_distinct_and_close_witness :
    (∃ (j : Nat) (p1 p2 : HSPlayer),
        findOpponent twoFresh1500.Population 0 (by decide) = Matchmaking.opponent (j : Int) ∧
        j < twoFresh1500.Population.length ∧ j ≠ 0 ∧
        twoFresh1500.Population[0]? = some p1 ∧ twoFresh1500.Population[j]? = some p2 ∧
        |p1.Stars - p2.Stars| ≤ 3 ∧
        PlaySingleGame drawsZero powTenOne twoFresh1500 0 =
          some { twoFresh1500 with
            Population := (twoFresh1500.Population.set 0
                (p1.UpdatePlayer
                  (decide (drawsZero twoFresh1500.real_generator < expP1 powTenOne p1 p2)) p2)).set j
              (p2.UpdatePlayer
                (!decide (drawsZero twoFresh1500.real_generator < expP1 powTenOne p1 p2))
                (p1.UpdatePlayer
                  (decide (drawsZero twoFresh1500.real_generator < expP1 powTenOne p1 p2)) p2))
            real_generator := twoFresh1500.real_generator + 1 }) ∧
    (producesGame farApart 0 = false ∧
      ∃ g1 : Globals, PlaySingleGame drawsZero powTenOne farApart 0 = some g1 ∧
        g1.Population = farApart.Population ∧ g1.real_generator = farApart.real_generator) :=
  ⟨(opponent_distinct_and_close drawsZero powTenOne twoFresh1500 0 (by decide)).1 (by decide),
   (opponent_distinct_and_close drawsZero powTenOne farApart 0 (by decide)).2 (by
    intro j m hne hget
    match j, hne, hget with
    | 1, _, hget =>
      have hm : m = { freshPlayer 1500 with Stars := 10 } := by
        simpa [farApart] using hget.symm
      subst hm
      decide
    | j + 2, _, hget => simp [farApart] at hget)⟩

/-- C6, as the specification states it, fails on the two players with 0 and
10 stars: the single tick of `PlayGames(1)` produces no game, yet the counter
`TotalGamesPlayed` goes up by 1. -/
theorem counter_advances_on_skipped_tick :
    gameTicks drawsZero powTenOne 1 0 farApart = 0 ∧
    (PlayGames drawsZero powTenOne farApart 1).map (fun g => g.TotalGamesPlayed) =
      some (farApart.TotalGamesPlayed + 1) := by
  decide

/-- C6 (amended): on every non-empty population and for every number of ticks
`n`, `PlayGames(n)` returns and has raised `TotalGamesPlayed` by exactly `n`,
one per tick, whether or not the tick produced a game; the number of ticks that
produced a game is at most `n`. -/
theorem counter_counts_every_tick (rd : Nat → Rat) (pt : Rat → Rat) (g : Globals) (n : Nat)
    (hpop : 0 < g.Population.length) :
    ∃ g2 : Globals, PlayGames rd pt g (n : Int) = some g2 ∧
      g2.TotalGamesPlayed = g.TotalGamesPlayed + n ∧
      gameTicks rd pt n 0 g ≤ n := by
  obtain ⟨g2, hg2, _, htgp, _, _, hticks, _⟩ := PlayGames_effect rd pt g n hpop
  exact ⟨g2, hg2, htgp, hticks⟩

/-- An instance of the preceding theorem: five ticks on the players with 0
and 10 stars raise the counter by 5. -/
theorem counter_counts_every_tick_witness :
    0 < farApart.Population.length ∧
    ∃ g2 : Globals, PlayGames drawsZero powTenOne farApart ((5 : Nat) : Int) = some g2 ∧
      g2.TotalGamesPlayed = farApart.TotalGamesPlayed + (5 : Nat) ∧
      gameTicks drawsZero powTenOne 5 0 farApart ≤ 5 :=
  ⟨by decide, counter_counts_every_tick drawsZero powTenOne farApart 5 (by decide)⟩

theorem expP1_powTenOne (p1 p2 : HSPlayer) : expP1 powTenOne p1 p2 = 1 / 2 := by
  norm_num [expP1, powTenOne]

theorem drawsZero_wins (k : Nat) (p1 p2 : HSPlayer) :
    decide (drawsZero k < expP1 powTenOne p1 p2) = true := by
  rw [expP1_powTenOne]
  simp [drawsZero]

theorem twoFresh1500_first_tick :
    PlaySingleGame drawsZero powTenOne twoFresh1500 0 =
      some { twoFresh1500 with
        Population := [winnerOfFirst, loserOfFirst]
        real_generator := 1 } := by
  have hfind : findOpponent twoFresh1500.Population 0 (by decide) = Matchmaking.opponent 1 := by
    decide
  unfold PlaySingleGame
  rw [dif_pos (by decide), hfind]
  simp only []
  rw [show (1 : Int) = ((1 : Nat) : Int) from rfl,
    playMatch_eq drawsZero powTenOne twoFresh1500 0 1 (freshPlayer 1500) (freshPlayer 1500)
      (by decide) rfl rfl, drawsZero_wins]
  rfl

/-- C7, as the specification states it, fails after one tick on two fresh
players rated 1500: the tick produces one game, after which the first player
has one win and the second one loss, so `Wins + Losses` summed over both is 2,
not the 1 tick that produced a game. -/
theorem one_game_counts_twice :
    gameTicks drawsZero powTenOne 1 0 twoFresh1500 = 1 ∧
    (PlayGames drawsZero powTenOne twoFresh1500 1).map (fun g => g.Population) =
      some [winnerOfFirst, loserOfFirst] ∧
    totalWinsLosses [winnerOfFirst, loserOfFirst] = 2 ∧
    totalWinsLosses [winnerOfFirst, loserOfFirst] ≠
      ((gameTicks drawsZero powTenOne 1 0 twoFresh1500 : Nat) : Int) := by
  have hticks : gameTicks drawsZero powTenOne 1 0 twoFresh1500 = 1 := by decide
  refine ⟨hticks, ?_, by decide, ?_⟩
  · unfold PlayGames
    rw [show (1 : Int).toNat = 1 from rfl,
      PlayGames_loop_succ drawsZero powTenOne 0 0 twoFresh1500 _ twoFresh1500_first_tick
        (by decide)]
    rfl
  · rw [hticks]; decide

/-- C7 (amended): for two freshly created players with identical rating 1500,
every sequence of random draws and every number of ticks `n`, `PlayGames(n)`
returns and the total of `Wins + Losses` over both players equals twice the
number of ticks that produced a game. -/
theorem two_players_total_is_twice_games (rd : Nat → Rat) (pt : Rat → Rat) (g : Globals)
    (n : Nat) (hpop : g.Population = [freshPlayer 1500, freshPlayer 1500]) :
    ∃ g2 : Globals, PlayGames rd pt g (n : Int) = some g2 ∧
      totalWinsLosses g2.Population = 2 * (gameTicks rd pt n 0 g : Int) := by
  obtain ⟨g2, hg2, _, _, _, hsum, _, _⟩ :=
    PlayGames_effect rd pt g n (by rw [hpop]; decide)
  refine ⟨g2, hg2, ?_⟩
  rw [hsum, hpop]
  have h0 : totalWinsLosses [freshPlayer 1500, freshPlayer 1500] = 0 := by decide
  rw [h0]
  omega

/-- An instance of the preceding theorem at 1000 ticks. -/
theorem two_players_total_is_twice_games_witness :
    twoFresh1500.Population = [freshPlayer 1500, freshPlayer 1500] ∧
    ∃ g2 : Globals, PlayGames drawsZero powTenOne twoFresh1500 ((1000 : Nat) : Int) = some g2 ∧
      totalWinsLosses g2.Population =
        2 * (gameTicks drawsZero powTenOne 1000 0 twoFresh1500 : Int) :=
  ⟨rfl, two_players_total_is_twice_games drawsZero powTenOne twoFresh1500 1000 rfl⟩

theorem PlayGames_toNat (rd : Nat → Rat) (pt : Rat → Rat) (g : Globals) (numGames : Int) :
    PlayGames rd pt g numGames = PlayGames rd pt g ((numGames.toNat : Nat) : Int) := by
  unfold PlayGames
  rw [Int.toNat_ofNat]

theorem PlayGames_bounded (rd : Nat → Rat) (pt : Rat → Rat) (g g2 : Globals) (numGames : Int)
    (hrun : PlayGames rd pt g numGames = some g2)
    (hb : ∀ p ∈ g.Population, p.Stars ≤ 99) : ∀ p ∈ g2.Population, p.Stars ≤ 99 := by
  rcases Nat.eq_zero_or_pos g.Population.length with hlen | hlen
  · unfold PlayGames at hrun
    cases hn : numGames.toNat with
    | zero =>
      rw [hn] at hrun
      simp only [PlayGames.loop, Option.some.injEq] at hrun
      rw [← hrun]
      exact hb
    | succ n =>
      rw [hn] at hrun
      have hnone : PlaySingleGame rd pt g 0 = none := by
        unfold PlaySingleGame
        rw [dif_neg (by omega)]
      simp [PlayGames.loop, hnone] at hrun
  · rw [PlayGames_toNat] at hrun
    obtain ⟨g3, hg3, _, _, _, _, _, hbound⟩ := PlayGames_effect rd pt g numGames.toNat hlen
    rw [hg3] at hrun
    injection hrun with hrun
    rw [← hrun]
    exact hbound hb

theorem SetupPopulation_bounded (rm : Nat → Rat) (g0 g1 : Globals) (numPlayers : Int)
    (hset : SetupPopulation rm g0 numPlayers = some g1) :
    g1.Population.length = numPlayers.toNat ∧ ∀ p ∈ g1.Population, p.Stars = 0 := by
  unfold SetupPopulation at hset
  split_ifs at hset with hneg
  injection hset with hset
  rw [← hset]
  obtain ⟨hlen, hmem⟩ := SetupPopulation_loop_spec rm numPlayers.toNat 0 []
  refine ⟨by simpa using hlen, ?_⟩
  intro p hp
  rcases hmem p hp with h | ⟨r, hr⟩
  · simp at h
  · rw [hr]; rfl

/-- C8, as the specification states it, fails at the bound 99: no population
size, number of ticks, rating source, random source and power function make a
ladder run from a freshly generated population end with a player above 99
stars. -/
theorem no_ladder_run_exceeds_99 :
    ¬ ∃ (numPlayers numGames : Int) (ratingMaker real_distribution : Nat → Rat)
        (powTen : Rat → Rat) (g0 g1 g2 : Globals),
        SetupPopulation ratingMaker g0 numPlayers = some g1 ∧
        PlayGames real_distribution powTen g1 numGames = some g2 ∧
        ∃ p ∈ g2.Population, p.Stars > 99 := by
  rintro ⟨numPlayers, numGames, rm, rd, pt, g0, g1, g2, hset, hrun, p, hp, hgt⟩
  have hb1 : ∀ q ∈ g1.Population, q.Stars ≤ 99 := by
    intro q hq
    have := (SetupPopulation_bounded rm g0 g1 numPlayers hset).2 q hq
    omega
  have := PlayGames_bounded rd pt g1 g2 numGames hrun hb1 p hp
  omega

/-- C8 (amended): over ladder runs the stars are bounded.  For every population
size of at least 1, every number of ticks and every sequence of random draws,
`SetupPopulation` followed by `PlayGames` returns and every player ends with at
most 99 stars: the focal player of a game has at most 95 and the opponent is
within 3 of that.  `UpdatePlayer` itself has no cap: a win raises the stars
from every value. -/
theorem ladder_stars_at_most_99 (ratingMaker real_distribution : Nat → Rat)
    (powTen : Rat → Rat) (g0 : Globals) (numPlayers numGames : Nat) (hn : 0 < numPlayers) :
    (∃ g1 g2 : Globals, SetupPopulation ratingMaker g0 (numPlayers : Int) = some g1 ∧
      (∀ p ∈ g1.Population, p.Stars = 0) ∧
      PlayGames real_distribution powTen g1 (numGames : Int) = some g2 ∧
      g2.Population.length = numPlayers ∧
      ∀ p ∈ g2.Population, p.Stars ≤ 99) ∧
    (∀ p opp : HSPlayer, p.Stars < (p.UpdatePlayer true opp).Stars) := by
  constructor
  · have hset : SetupPopulation ratingMaker g0 (numPlayers : Int) =
        some { g0 with Population := SetupPopulation.loop ratingMaker numPlayers 0 [] } := by
      unfold SetupPopulation
      rw [if_neg (by omega), Int.toNat_ofNat]
    obtain ⟨hlen, hzero⟩ := SetupPopulation_bounded ratingMaker g0 _ _ hset
    rw [Int.toNat_ofNat] at hlen
    obtain ⟨g2, hg2, hlen2, _, _, _, _, hbound⟩ :=
      PlayGames_effect real_distribution powTen
        { g0 with Population := SetupPopulation.loop ratingMaker numPlayers 0 [] } numGames
        (by rw [hlen]; exact hn)
    refine ⟨_, g2, hset, hzero, hg2, by rw [hlen2, hlen], hbound ?_⟩
    intro p hp
    have := hzero p hp
    omega
  · intro p opp
    rw [UpdatePlayer_win_Stars]
    split_ifs <;> omega

/-- An instance of the preceding theorem: two players, ten ticks. -/
theorem ladder_stars_at_most_99_witness :
    (0 : Nat) < 2 ∧
    ∃ g1 g2 : Globals, SetupPopulation ratings1500 initialGlobals ((2 : Nat) : Int) = some g1 ∧
      (∀ p ∈ g1.Population, p.Stars = 0) ∧
      PlayGames drawsZero powTenOne g1 ((10 : Nat) : Int) = some g2 ∧
      g2.Population.length = 2 ∧
      ∀ p ∈ g2.Population, p.Stars ≤ 99 :=
  ⟨by decide,
    (ladder_stars_at_most_99 ratings1500 drawsZero powTenOne initialGlobals 2 10 (by decide)).1⟩

/-- C10, as the specification states it, fails on a population of one fresh
player: `PlaySingleGame(0)` returns normally with the population unchanged,
having printed `No match found!`; no error is raised. -/
theorem single_player_tick_returns_normally :
    onePlayer.Population.length < 2 ∧
    (PlaySingleGame drawsZero powTenOne onePlayer 0).isSome = true ∧
    (PlaySingleGame drawsZero powTenOne onePlayer 0).map (fun g => g.Population) =
      some onePlayer.Population ∧
    (PlaySingleGame drawsZero powTenOne onePlayer 0).map (fun g => g.cout) =
      some ["No match found!"] := by
  decide

/-- C10 (amended): on a population of exactly one player who is not legend,
`PlaySingleGame(0)` examines no candidate, prints `No match found!` and returns
normally, leaving the population, the game counter and the random source
unchanged; no error is raised. -/
theorem single_player_tick (rd : Nat → Rat) (pt : Rat → Rat) (g : Globals) (p : HSPlayer)
    (hpop : g.Population = [p]) (hleg : p.isLegend = false) :
    PlaySingleGame rd pt g 0 = some { g with cout := g.cout ++ ["No match found!"] } := by
  obtain ⟨pop, tgp, rg, cout⟩ := g
  simp only [] at hpop
  subst hpop
  simp [PlaySingleGame, findOpponent, scanLoop, hleg]

/-- An instance of the preceding theorem on one fresh player. -/
theorem single_player_tick_witness :
    onePlayer.Population = [freshPlayer 1500] ∧ (freshPlayer 1500).isLegend = false ∧
    PlaySingleGame drawsZero powTenOne onePlayer 0 =
      some { onePlayer with cout := onePlayer.cout ++ ["No match found!"] } :=
  ⟨rfl, by decide, single_player_tick drawsZero powTenOne onePlayer (freshPlayer 1500) rfl (by decide)⟩

/-! ## The frame of a tick and population setup -/
theorem findOpponent_legend (Population : List HSPlayer) (playerNo : Nat)
    (h : playerNo < Population.length)
    (hleg : (Population.get ⟨playerNo, h⟩).isLegend = true) :
    findOpponent Population playerNo h = Matchmaking.legendSkip := by
  unfold findOpponent
  simp only []
  rw [if_pos hleg]

/-- C11: for every population, every valid focal index and every random draw,
one tick returns, leaves the population size and every player's rating
unchanged, and changes no player other than the focal player and the selected
opponent; a tick that plays no game, in particular when the focal player is
legend or no other player is within 3 stars, leaves the population unchanged. -/
theorem tick_frame (rd : Nat → Rat) (pt : Rat → Rat) (g : Globals) (playerNo : Nat)
    (h : playerNo < g.Population.length) :
    ∃ g1 : Globals, PlaySingleGame rd pt g playerNo = some g1 ∧
      g1.Population.length = g.Population.length ∧
      (∀ i : Nat, (g1.Population[i]?).map (fun p => p.Rating) =
        (g.Population[i]?).map (fun p => p.Rating)) ∧
      ((producesGame g playerNo = true ∧
          ∃ j : Nat, findOpponent g.Population playerNo h = Matchmaking.opponent (j : Int) ∧
            j ≠ playerNo ∧
            ∀ i : Nat, i ≠ playerNo → i ≠ j → g1.Population[i]? = g.Population[i]?) ∨
        (producesGame g playerNo = false ∧ g1.Population = g.Population)) ∧
      ((g.Population.get ⟨playerNo, h⟩).isLegend = true → g1.Population = g.Population) ∧
      ((∀ (j : Nat) (m : HSPlayer), j ≠ playerNo → g.Population[j]? = some m →
          3 < |(g.Population.get ⟨playerNo, h⟩).Stars - m.Stars|) →
        g1.Population = g.Population) := by
  by_cases hop : ∃ pos : Int, findOpponent g.Population playerNo h = Matchmaking.opponent pos
  · obtain ⟨pos, hres⟩ := hop
    obtain ⟨j, p1, p2, hpos, hj, hne, h1, h2, hS, hdiff, hplay⟩ :=
      PlaySingleGame_game rd pt g playerNo h pos hres
    have h3 : (g.Population.set playerNo
        (p1.UpdatePlayer (decide (rd g.real_generator < expP1 pt p1 p2)) p2))[j]? = some p2 := by
      rw [List.getElem?_set_ne (Ne.symm hne)]; exact h2
    refine ⟨_, hplay, by simp, ?_, ?_, ?_, ?_⟩
    · intro i
      simp only []
      by_cases hij : i = j
      · subst hij
        rw [List.getElem?_set_self (by simpa using hj), h2]
        simp [UpdatePlayer_Rating]
      · rw [List.getElem?_set_ne (Ne.symm hij)]
        by_cases hip : i = playerNo
        · subst hip
          rw [List.getElem?_set_self h, h1]
          simp [UpdatePlayer_Rating]
        · rw [List.getElem?_set_ne (Ne.symm hip)]
    · left
      refine ⟨producesGame_of_opponent g playerNo h pos hres, j, hpos ▸ hres, hne, ?_⟩
      intro i hip hij
      simp only []
      rw [List.getElem?_set_ne (Ne.symm hij), List.getElem?_set_ne (Ne.symm hip)]
    · intro hleg
      rw [findOpponent_legend g.Population playerNo h hleg] at hres
      exact absurd hres (by simp)
    · intro hfar
      exact absurd hres (findOpponent_none_close g.Population playerNo h hfar pos)
  · have hres : ∀ pos : Int, findOpponent g.Population playerNo h ≠ Matchmaking.opponent pos :=
      fun pos hp => hop ⟨pos, hp⟩
    obtain ⟨g1, hg1, hpop, _, _⟩ := PlaySingleGame_skip rd pt g playerNo h hres
    refine ⟨g1, hg1, by rw [hpop], fun i => by rw [hpop], ?_, fun _ => hpop, fun _ => hpop⟩
    right
    exact ⟨producesGame_of_skip g playerNo h hres, hpop⟩

/-- An instance of the preceding theorem: the first tick on two fresh players
returns with two players whose ratings are unchanged. -/
theorem tick_frame_witness :
    ∃ g1 : Globals, PlaySingleGame drawsZero powTenOne twoFresh1500 0 = some g1 ∧
      g1.Population.length = twoFresh1500.Population.length ∧
      (∀ i : Nat, (g1.Population[i]?).map (fun p => p.Rating) =
        (twoFresh1500.Population[i]?).map (fun p => p.Rating)) :=
  let ⟨g1, h1, h2, h3, _⟩ := tick_frame drawsZero powTenOne twoFresh1500 0 (by decide)
  ⟨g1, h1, h2, h3⟩

theorem SetupPopulation_loop_eq (rm : Nat → Rat) (n : Nat) :
    ∀ (i : Nat) (pop : List HSPlayer),
      SetupPopulation.loop rm n i pop =
        pop ++ (List.range n).map (fun k => freshPlayer (max 100 (min 2900 (rm (i + k))))) := by
  induction n with
  | zero => intro i pop; simp [SetupPopulation.loop]
  | succ n ih =>
    intro i pop
    unfold SetupPopulation.loop
    simp only []
    rw [ih, List.range_succ_eq_map, List.map_cons, List.map_map, List.append_assoc]
    congr 1
    simp only [List.singleton_append, Nat.add_zero]
    congr 1
    · unfold freshPlayer
      congr 1
      by_cases h1 : rm i < 100
      · have : min 2900 (rm i) = rm i := min_eq_right (by linarith)
        rw [if_pos h1, if_neg (by norm_num), this, max_eq_left (le_of_lt h1)]
      · rw [if_neg h1]
        by_cases h2 : rm i > 2900
        · rw [if_pos h2, min_eq_left (le_of_lt h2), max_eq_right (by norm_num)]
        · rw [if_neg h2, min_eq_right (not_lt.mp h2), max_eq_right (not_lt.mp h1)]
    · apply List.map_congr_left
      intro k _
      have hk : i + 1 + k = i + (k + 1) := by omega
      simp only [Function.comp_apply, Nat.succ_eq_add_one, hk]

/-- C14: for every `n ≥ 0`, every prior content of the globals and every
sequence of normal variates, `SetupPopulation(n)` returns with exactly `n`
players; the `i`-th has as rating the `i`-th variate clamped to `[100, 2900]`,
which lies in that interval, and has wins, losses, stars, win streak and both
legend snapshots equal to 0. -/
theorem SetupPopulation_fresh (ratingMaker : Nat → Rat) (g : Globals) (n : Nat) :
    ∃ g1 : Globals, SetupPopulation ratingMaker g (n : Int) = some g1 ∧
      g1.Population.length = n ∧
      g1.Population =
        (List.range n).map (fun i => freshPlayer (max 100 (min 2900 (ratingMaker i)))) ∧
      ∀ i : Nat, i < n → ∃ p : HSPlayer, g1.Population[i]? = some p ∧
        p.Rating = max 100 (min 2900 (ratingMaker i)) ∧
        100 ≤ p.Rating ∧ p.Rating ≤ 2900 ∧
        p.Wins = 0 ∧ p.Losses = 0 ∧ p.Stars = 0 ∧ p.WinStreak = 0 ∧
        p.LegendAtWins = 0 ∧ p.LegendAtLosses = 0 := by
  have hpop : SetupPopulation.loop ratingMaker n 0 [] =
      (List.range n).map (fun i => freshPlayer (max 100 (min 2900 (ratingMaker i)))) := by
    rw [SetupPopulation_loop_eq]
    simp
  refine ⟨{ g with Population := SetupPopulation.loop ratingMaker n 0 [] }, ?_, ?_, hpop, ?_⟩
  · unfold SetupPopulation
    rw [if_neg (by omega), Int.toNat_ofNat]
  · simp only []
    rw [hpop]
    simp
  · intro i hi
    refine ⟨freshPlayer (max 100 (min 2900 (ratingMaker i))), ?_, rfl, ?_, ?_,
      rfl, rfl, rfl, rfl, rfl, rfl⟩
    · simp only []
      rw [hpop]
      simp [hi]
    · exact le_max_left _ _
    · exact max_le (by norm_num) (min_le_left _ _)

/-- An instance of the preceding theorem: three players from variates 50, 3000
and 1500, replacing a previous population. -/
theorem SetupPopulation_fresh_witness :
    ∃ g1 : Globals, SetupPopulation ratingsWide farApart ((3 : Nat) : Int) = some g1 ∧
      g1.Population.length = 3 ∧
      g1.Population =
        (List.range 3).map (fun i => freshPlayer (max 100 (min 2900 (ratingsWide i)))) :=
  let ⟨g1, h1, h2, h3, _⟩ := SetupPopulation_fresh ratingsWide farApart 3
  ⟨g1, h1, h2, h3⟩

/-! ## The win probability -/
theorem expP1_eq_winProbability (powTen : Rat → Rat) (p1 p2 : HSPlayer) :
    expP1 powTen p1 p2 = winProbability powTen p1.Rating p2.Rating := rfl

theorem clampFudge_bounds {K : Type} [LinearOrderedField K] (e : K) :
    (5 : K) / 100 ≤ clampFudge e ∧ clampFudge e ≤ 1 - 5 / 100 := by
  unfold clampFudge
  simp only []
  have h5 : (5 : K) / 100 ≤ 1 - 5 / 100 := by norm_num
  split_ifs with h1 h2 h3
  · exact ⟨h5, le_refl _⟩
  · exact ⟨le_refl _, h5⟩
  · exact ⟨h5, le_refl _⟩
  · exact ⟨not_lt.mp h1, not_lt.mp h3⟩

theorem clampFudge_of_mem {K : Type} [LinearOrderedField K] (e : K)
    (h1 : (5 : K) / 100 ≤ e) (h2 : e ≤ 1 - 5 / 100) : clampFudge e = e := by
  unfold clampFudge
  simp only []
  rw [if_neg (not_lt.mpr h1), if_neg (not_lt.mpr h2)]

/-- C12: for every pair of real ratings the win probability used for the
match, the logistic expression with the real power `10 ^ x` clamped below at
0.05 and above at 0.95, lies in `[0.05, 0.95]`; the same bounds hold for the
value `expP1` of the program model whatever `powTen` computes. -/
theorem winProbability_bounds :
    (∀ ratingA ratingB : ℝ,
      (0.05 : ℝ) ≤ winProbability (fun x : ℝ => (10 : ℝ) ^ x) ratingA ratingB ∧
      winProbability (fun x : ℝ => (10 : ℝ) ^ x) ratingA ratingB ≤ 0.95) ∧
    (∀ (powTen : Rat → Rat) (p1 p2 : HSPlayer),
      (5 : Rat) / 100 ≤ expP1 powTen p1 p2 ∧ expP1 powTen p1 p2 ≤ 95 / 100) := by
  constructor
  · intro a b
    have h := clampFudge_bounds (logisticOutcome (fun x : ℝ => (10 : ℝ) ^ x) a b)
    unfold winProbability
    constructor
    · have := h.1; norm_num at this ⊢; linarith
    · have := h.2; norm_num at this ⊢; linarith
  · intro powTen p1 p2
    rw [expP1_eq_winProbability]
    have h := clampFudge_bounds (logisticOutcome powTen p1.Rating p2.Rating)
    unfold winProbability
    constructor
    · exact h.1
    · have := h.2; norm_num at this ⊢; linarith

theorem logistic_complement (a b : ℝ) :
    logisticOutcome (fun x : ℝ => (10 : ℝ) ^ x) a b +
      logisticOutcome (fun x : ℝ => (10 : ℝ) ^ x) b a = 1 := by
  unfold logisticOutcome
  simp only []
  have hneg : (a - b) / 400 = -((b - a) / 400) := by ring
  have hpos : (0 : ℝ) < (10 : ℝ) ^ ((b - a) / 400) := Real.rpow_pos_of_pos (by norm_num) _
  rw [hneg, Real.rpow_neg (by norm_num)]
  field_simp
  ring

/-- C13: over the reals the unclamped logistic win probabilities of the two
sides add up to 1, and so do the clamped win probabilities whenever the clamp
does not engage, that is when the logistic value lies in `[0.05, 0.95]`. -/
theorem winProbability_complement (a b : ℝ) :
    (1 / (1 + (10 : ℝ) ^ ((b - a) / 400)) + 1 / (1 + (10 : ℝ) ^ ((a - b) / 400)) = 1) ∧
    logisticOutcome (fun x : ℝ => (10 : ℝ) ^ x) a b +
      logisticOutcome (fun x : ℝ => (10 : ℝ) ^ x) b a = 1 ∧
    ((5 : ℝ) / 100 ≤ logisticOutcome (fun x : ℝ => (10 : ℝ) ^ x) a b →
      logisticOutcome (fun x : ℝ => (10 : ℝ) ^ x) a b ≤ 1 - 5 / 100 →
      winProbability (fun x : ℝ => (10 : ℝ) ^ x) a b +
        winProbability (fun x : ℝ => (10 : ℝ) ^ x) b a = 1) := by
  have hsum := logistic_complement a b
  refine ⟨hsum, hsum, ?_⟩
  intro h1 h2
  have h3 : (5 : ℝ) / 100 ≤ logisticOutcome (fun x : ℝ => (10 : ℝ) ^ x) b a := by linarith
  have h4 : logisticOutcome (fun x : ℝ => (10 : ℝ) ^ x) b a ≤ 1 - 5 / 100 := by linarith
  unfold winProbability
  rw [clampFudge_of_mem _ h1 h2, clampFudge_of_mem _ h3 h4]
  exact hsum

/-- An instance of the preceding theorem: between equal ratings both win
probabilities are one half and add up to 1. -/
theorem winProbability_complement_witness :
    winProbability (fun x : ℝ => (10 : ℝ) ^ x) 1500 1500 +
      winProbability (fun x : ℝ => (10 : ℝ) ^ x) 1500 1500 = 1 := by
  have hl : logisticOutcome (fun x : ℝ => (10 : ℝ) ^ x) 1500 1500 = 1 / 2 := by
    unfold logisticOutcome
    norm_num
  exact (winProbability_complement 1500 1500).2.2 (by rw [hl]; norm_num) (by rw [hl]; norm_num)

/-! ## The bonus threshold and the wins needed for legend -/
/-- C17, evaluated on the code: a player on 50 stars whose win brings the
streak to 3 stands at rank 9 after the base increment, not yet at rank 5, and
the win still awards no bonus star. -/
theorem no_bonus_at_rank_9 :
    playerAt50.WinStreak + 1 > 2 ∧
    StarsToRank (playerAt50.Stars + 1) = 9 ∧
    StarsToRank (playerAt50.Stars + 1) > 5 ∧
    (playerAt50.UpdatePlayer true HSPlayer.ctor).Stars = playerAt50.Stars + 1 := by
  decide

theorem UpdatePlayer_bonus_iff (p opp : HSPlayer) (hs : p.WinStreak + 1 > 2) :
    ((p.UpdatePlayer true opp).Stars = p.Stars + 2 ↔ p.Stars + 1 ≤ 45) := by
  rw [UpdatePlayer_win_Stars]
  split_ifs with h
  · simp [h.2]
  · have : ¬ p.Stars + 1 ≤ 45 := fun hc => h ⟨hs, hc⟩
    constructor
    · intro h2; omega
    · intro h2; exact absurd h2 this

theorem winsInvariant_step (p : HSPlayer) (b : Bool) (opp : HSPlayer)
    (h : winsInvariant p) : winsInvariant (p.UpdatePlayer b opp) := by
  obtain ⟨h1, h2, h3⟩ := h
  unfold winsInvariant
  rw [UpdatePlayer_WinStreak, UpdatePlayer_Wins]
  cases b
  · rw [UpdatePlayer_loss_Stars]
    simp only [Bool.false_eq_true, if_false]
    split_ifs <;> omega
  · rw [UpdatePlayer_win_Stars]
    simp only [if_true]
    split_ifs <;> omega

theorem winsInvariant_applyResults (rs : List (Bool × HSPlayer)) :
    ∀ p : HSPlayer, winsInvariant p → winsInvariant (applyResults p rs) := by
  induction rs with
  | nil => intro p h; exact h
  | cons r rs ih =>
    intro p h
    rw [applyResults_cons]
    exact ih _ (winsInvariant_step p r.1 r.2 h)

theorem winsInvariant_fresh (rating : Rat) : winsInvariant (freshPlayer rating) := by
  unfold winsInvariant freshPlayer HSPlayer.ctor
  simp

theorem legend_needs_74_wins_aux (rating : Rat) (rs : List (Bool × HSPlayer))
    (h : (applyResults (freshPlayer rating) rs).Stars > 95) :
    (applyResults (freshPlayer rating) rs).Wins ≥ 74 := by
  obtain ⟨_, _, h3⟩ := winsInvariant_applyResults rs _ (winsInvariant_fresh rating)
  omega

theorem legend_snapshot_ge_74 (rating : Rat) (rs : List (Bool × HSPlayer)) :
    (applyResults (freshPlayer rating) rs).Stars > 95 →
      (applyResults (freshPlayer rating) rs).LegendAtWins ≥ 74 := by
  induction rs using List.reverseRecOn with
  | nil =>
    intro h
    have h0 : (applyResults (freshPlayer rating) []).Stars = 0 := rfl
    omega
  | append_singleton rs r ih =>
    intro h
    by_cases hprev : (applyResults (freshPlayer rating) rs).Stars > 95
    · have hk := UpdatePlayer_legend_keeps_snapshot (applyResults (freshPlayer rating) rs)
        r.1 r.2 hprev
      rw [applyResults_snoc, hk.1]
      exact ih hprev
    · have hw := legend_needs_74_wins_aux rating (rs ++ [r]) h
      rw [applyResults_snoc] at h hw ⊢
      have hL := UpdatePlayer_LegendAt (applyResults (freshPlayer rating) rs) r.1 r.2
      rw [if_pos ⟨h, by omega⟩] at hL
      rw [hL.1]
      exact hw

theorem UpdatePlayer_withRating (p : HSPlayer) (b : Bool) (opp : HSPlayer) (r : Rat) :
    ({ p with Rating := r } : HSPlayer).UpdatePlayer b opp =
      { p.UpdatePlayer b opp with Rating := r } := by
  unfold HSPlayer.UpdatePlayer HSPlayer.winBranch HSPlayer.lossBranch
  cases b <;> simp <;> split_ifs <;> simp_all

theorem applyResults_withRating (rs : List (Bool × HSPlayer)) (r : Rat) :
    ∀ p : HSPlayer, applyResults { p with Rating := r } rs =
      { applyResults p rs with Rating := r } := by
  induction rs with
  | nil => intro p; rfl
  | cons x rs ih =>
    intro p
    rw [applyResults_cons, applyResults_cons, UpdatePlayer_withRating, ih]

set_option maxRecDepth 100000 in
theorem wins74_from_ctor :
    (applyResults HSPlayer.ctor wins74).Stars = 96 ∧
    (applyResults HSPlayer.ctor wins74).Wins = 74 := by
  decide

/-- C18: for every sequence of match results applied to a freshly constructed
player, in any order of wins and losses, a player who ends with more than 95
stars has at least 74 wins and a legend snapshot `LegendAtWins` of at least 74;
the bound is tight, since 74 wins in a row give exactly 96 stars. -/
theorem legend_needs_74_wins (rating : Rat) :
    (∀ rs : List (Bool × HSPlayer), (applyResults (freshPlayer rating) rs).Stars > 95 →
      (applyResults (freshPlayer rating) rs).Wins ≥ 74 ∧
      (applyResults (freshPlayer rating) rs).LegendAtWins ≥ 74) ∧
    (applyResults (freshPlayer rating) wins74).Stars = 96 ∧
    (applyResults (freshPlayer rating) wins74).Wins = 74 := by
  have hr : applyResults (freshPlayer rating) wins74 =
      { applyResults HSPlayer.ctor wins74 with Rating := rating } :=
    applyResults_withRating wins74 rating HSPlayer.ctor
  refine ⟨fun rs h => ⟨legend_needs_74_wins_aux rating rs h, legend_snapshot_ge_74 rating rs h⟩,
    ?_, ?_⟩
  · rw [hr]; simp only []; exact wins74_from_ctor.1
  · rw [hr]; simp only []; exact wins74_from_ctor.2

/-! ## Which opponent the scan selects -/
theorem scanLoop_no_improve (Population : List HSPlayer) (hpop : 0 < Population.length)
    (p1 : HSPlayer) (n : Nat) :
    ∀ (p2Pos : Nat) (pos diff : Int),
      (∀ (k : Nat) (m : HSPlayer), 1 ≤ k → k ≤ n →
        Population[(p2Pos + k) % Population.length]? = some m → diff ≤ |p1.Stars - m.Stars|) →
      scanLoop Population hpop p1 n p2Pos pos diff = (pos, diff) := by
  induction n with
  | zero => intro p2Pos pos diff _; rfl
  | succ n ih =>
    intro p2Pos pos diff hall
    have hq : (p2Pos + 1) % Population.length < Population.length := Nat.mod_lt _ hpop
    have hm : Population[(p2Pos + 1) % Population.length]? =
        some (Population.get ⟨(p2Pos + 1) % Population.length, hq⟩) := by
      simp [List.getElem?_eq_getElem hq]
    have h1 := hall 1 _ (le_refl _) (by omega) hm
    unfold scanLoop
    simp only []
    rw [if_neg (not_lt.mpr h1)]
    simp only []
    by_cases hz : diff = 0
    · rw [if_pos hz]
    · rw [if_neg hz]
      apply ih
      intro k m hk1 hk2 hget
      rw [mod_step] at hget
      exact hall (k + 1) m (by omega) (by omega) hget

theorem scanLoop_first_min (Population : List HSPlayer) (hpop : 0 < Population.length)
    (p1 : HSPlayer) (n : Nat) :
    ∀ (p2Pos : Nat) (pos diff : Int) (k0 : Nat) (m0 : HSPlayer),
      1 ≤ k0 → k0 ≤ n →
      Population[(p2Pos + k0) % Population.length]? = some m0 →
      |p1.Stars - m0.Stars| < diff →
      (∀ (k : Nat) (m : HSPlayer), 1 ≤ k → k ≤ n →
        Population[(p2Pos + k) % Population.length]? = some m →
        |p1.Stars - m0.Stars| ≤ |p1.Stars - m.Stars|) →
      (∀ (k : Nat) (m : HSPlayer), 1 ≤ k → k < k0 →
        Population[(p2Pos + k) % Population.length]? = some m →
        |p1.Stars - m0.Stars| < |p1.Stars - m.Stars|) →
      scanLoop Population hpop p1 n p2Pos pos diff =
        ((((p2Pos + k0) % Population.length : Nat) : Int), |p1.Stars - m0.Stars|) := by
  induction n with
  | zero => intro p2Pos pos diff k0 m0 h1 h2; omega
  | succ n ih =>
    intro p2Pos pos diff k0 m0 hk1 hk2 hget0 hlt hmin hfirst
    have hq : (p2Pos + 1) % Population.length < Population.length := Nat.mod_lt _ hpop
    have hm : Population[(p2Pos + 1) % Population.length]? =
        some (Population.get ⟨(p2Pos + 1) % Population.length, hq⟩) := by
      simp [List.getElem?_eq_getElem hq]
    have hnn : 0 ≤ |p1.Stars - m0.Stars| := abs_nonneg _
    unfold scanLoop
    simp only []
    rcases Nat.eq_or_lt_of_le hk1 with hk | hk
    · -- the first candidate is the minimum
      subst hk
      have hm0 : Population.get ⟨(p2Pos + 1) % Population.length, hq⟩ = m0 := by
        rw [hm] at hget0; exact Option.some.inj hget0
      rw [hm0, if_pos hlt]
      simp only []
      by_cases hz : |p1.Stars - m0.Stars| = 0
      · rw [if_pos hz]
      · rw [if_neg hz]
        apply scanLoop_no_improve
        intro k m hk1' hk2' hget
        rw [mod_step] at hget
        exact hmin (k + 1) m (by omega) (by omega) hget
    · -- the first candidate is strictly worse than the minimum
      have hworse := hfirst 1 _ (le_refl _) hk hm
      have hget0' : Population[((p2Pos + 1) % Population.length + (k0 - 1)) %
          Population.length]? = some m0 := by
        rw [mod_step]
        rw [show k0 - 1 + 1 = k0 by omega]
        exact hget0
      have hidx : ((p2Pos + 1) % Population.length + (k0 - 1)) % Population.length =
          (p2Pos + k0) % Population.length := by
        rw [mod_step, show k0 - 1 + 1 = k0 by omega]
      have hmin' : ∀ (k : Nat) (m : HSPlayer), 1 ≤ k → k ≤ n →
          Population[((p2Pos + 1) % Population.length + k) % Population.length]? = some m →
          |p1.Stars - m0.Stars| ≤ |p1.Stars - m.Stars| := by
        intro k m hk1' hk2' hget
        rw [mod_step] at hget
        exact hmin (k + 1) m (by omega) (by omega) hget
      have hfirst' : ∀ (k : Nat) (m : HSPlayer), 1 ≤ k → k < k0 - 1 →
          Population[((p2Pos + 1) % Population.length + k) % Population.length]? = some m →
          |p1.Stars - m0.Stars| < |p1.Stars - m.Stars| := by
        intro k m hk1' hk2' hget
        rw [mod_step] at hget
        exact hfirst (k + 1) m (by omega) (by omega) hget
      by_cases hd : |p1.Stars - (Population.get ⟨(p2Pos + 1) % Population.length, hq⟩).Stars|
          < diff
      · rw [if_pos hd]
        simp only []
        rw [if_neg (by omega)]
        rw [ih _ _ _ (k0 - 1) m0 (by omega) (by omega) hget0' hworse hmin' hfirst', hidx]
      · rw [if_neg hd]
        simp only []
        rw [if_neg (by omega)]
        rw [ih _ _ _ (k0 - 1) m0 (by omega) (by omega) hget0' hlt hmin' hfirst', hidx]

theorem cyclic_covers (playerNo j n : Nat) (h : playerNo < n) (hj : j < n) (hne : j ≠ playerNo) :
    ∃ k : Nat, 1 ≤ k ∧ k ≤ n - 1 ∧ (playerNo + k) % n = j := by
  rcases Nat.lt_or_ge playerNo j with hlt | hge
  · refine ⟨j - playerNo, by omega, by omega, ?_⟩
    rw [show playerNo + (j - playerNo) = j by omega, Nat.mod_eq_of_lt hj]
  · refine ⟨j + n - playerNo, by omega, by omega, ?_⟩
    rw [show playerNo + (j + n - playerNo) = j + n by omega, Nat.add_mod_right,
      Nat.mod_eq_of_lt hj]

theorem exists_first_min (f : Nat → Int) (n : Nat) (hn : 1 ≤ n) :
    ∃ k0 : Nat, 1 ≤ k0 ∧ k0 ≤ n ∧ (∀ k : Nat, 1 ≤ k → k ≤ n → f k0 ≤ f k) ∧
      (∀ k : Nat, 1 ≤ k → k < k0 → f k0 < f k) := by
  induction n with
  | zero => omega
  | succ n ih =>
    rcases Nat.eq_zero_or_pos n with hz | hp
    · subst hz
      refine ⟨1, le_refl _, le_refl _, ?_, ?_⟩
      · intro k hk1 hk2
        have : k = 1 := by omega
        subst this
        exact le_refl _
      · intro k hk1 hk2; omega
    · obtain ⟨k0, h1, h2, hmin, hfirst⟩ := ih hp
      by_cases hlt : f (n + 1) < f k0
      · refine ⟨n + 1, by omega, le_refl _, ?_, ?_⟩
        · intro k hk1 hk2
          rcases Nat.eq_or_lt_of_le hk2 with he | hl
          · rw [he]
          · have := hmin k hk1 (by omega)
            omega
        · intro k hk1 hk2
          have := hmin k hk1 (by omega)
          omega
      · refine ⟨k0, h1, by omega, ?_, hfirst⟩
        intro k hk1 hk2
        rcases Nat.eq_or_lt_of_le hk2 with he | hl
        · rw [he]; omega
        · exact hmin k hk1 (by omega)

theorem getElem?_get_eq (l : List HSPlayer) (i : Nat) (h : i < l.length) (m : HSPlayer)
    (hget : l[i]? = some m) : l.get ⟨i, h⟩ = m := by
  rw [List.getElem?_eq_getElem h] at hget
  exact Option.some.inj hget

/-- C15: for every population, every valid focal index whose player is not
legend, and whenever some other player is within 3 stars of the focal player,
the opponent played is the first position `(playerNo + k0) mod size` in the
cyclic scan order `playerNo + 1, playerNo + 2, ...` whose distance to the focal
player equals the minimum over all other players: no other player is closer,
and no earlier position of the scan is at that distance. -/
theorem opponent_is_first_closest (rd : Nat → Rat) (pt : Rat → Rat) (g : Globals)
    (playerNo : Nat) (h : playerNo < g.Population.length)
    (hleg : (g.Population.get ⟨playerNo, h⟩).isLegend = false)
    (hclose : ∃ (j : Nat) (m : HSPlayer), j ≠ playerNo ∧ g.Population[j]? = some m ∧
      |(g.Population.get ⟨playerNo, h⟩).Stars - m.Stars| ≤ 3) :
    ∃ (k0 : Nat) (p2 : HSPlayer),
      1 ≤ k0 ∧ k0 ≤ g.Population.length - 1 ∧
      g.Population[(playerNo + k0) % g.Population.length]? = some p2 ∧
      (∀ (j : Nat) (m : HSPlayer), j ≠ playerNo → g.Population[j]? = some m →
        |(g.Population.get ⟨playerNo, h⟩).Stars - p2.Stars| ≤
          |(g.Population.get ⟨playerNo, h⟩).Stars - m.Stars|) ∧
      (∀ (k : Nat) (m : HSPlayer), 1 ≤ k → k < k0 →
        g.Population[(playerNo + k) % g.Population.length]? = some m →
        |(g.Population.get ⟨playerNo, h⟩).Stars - m.Stars| ≠
          |(g.Population.get ⟨playerNo, h⟩).Stars - p2.Stars|) ∧
      findOpponent g.Population playerNo h =
        Matchmaking.opponent (((playerNo + k0) % g.Population.length : Nat) : Int) ∧
      PlaySingleGame rd pt g playerNo =
        some { g with
          Population := (g.Population.set playerNo
              ((g.Population.get ⟨playerNo, h⟩).UpdatePlayer
                (decide (rd g.real_generator <
                  expP1 pt (g.Population.get ⟨playerNo, h⟩) p2)) p2)).set
            ((playerNo + k0) % g.Population.length)
            (p2.UpdatePlayer
              (!decide (rd g.real_generator <
                expP1 pt (g.Population.get ⟨playerNo, h⟩) p2))
              ((g.Population.get ⟨playerNo, h⟩).UpdatePlayer
                (decide (rd g.real_generator <
                  expP1 pt (g.Population.get ⟨playerNo, h⟩) p2)) p2))
          real_generator := g.real_generator + 1 } := by
  obtain ⟨j, mj, hjne, hjget, hjdiff⟩ := hclose
  have hpop : 0 < g.Population.length := Nat.lt_of_le_of_lt (Nat.zero_le _) h
  have hjlt : j < g.Population.length := by
    rcases List.getElem?_eq_some.mp hjget with ⟨hlt, _⟩
    exact hlt
  obtain ⟨kj, hkj1, hkj2, hkj⟩ := cyclic_covers playerNo j _ h hjlt hjne
  obtain ⟨k0, hk1, hk2, hmin, hfirst⟩ := exists_first_min
    (fun k => |(g.Population.get ⟨playerNo, h⟩).Stars -
      (g.Population.get ⟨(playerNo + k) % g.Population.length, Nat.mod_lt _ hpop⟩).Stars|)
    (g.Population.length - 1) (by omega)
  have hget0 : g.Population[(playerNo + k0) % g.Population.length]? =
      some (g.Population.get ⟨(playerNo + k0) % g.Population.length, Nat.mod_lt _ hpop⟩) := by
    simp [List.getElem?_eq_getElem (Nat.mod_lt (playerNo + k0) hpop)]
  have hmin' : ∀ (k : Nat) (m : HSPlayer), 1 ≤ k → k ≤ g.Population.length - 1 →
      g.Population[(playerNo + k) % g.Population.length]? = some m →
      |(g.Population.get ⟨playerNo, h⟩).Stars -
        (g.Population.get ⟨(playerNo + k0) % g.Population.length, Nat.mod_lt _ hpop⟩).Stars| ≤
        |(g.Population.get ⟨playerNo, h⟩).Stars - m.Stars| := by
    intro k m hk1' hk2' hget
    rw [← getElem?_get_eq _ _ (Nat.mod_lt _ hpop) m hget]
    exact hmin k hk1' hk2'
  have hfirst' : ∀ (k : Nat) (m : HSPlayer), 1 ≤ k → k < k0 →
      g.Population[(playerNo + k) % g.Population.length]? = some m →
      |(g.Population.get ⟨playerNo, h⟩).Stars -
        (g.Population.get ⟨(playerNo + k0) % g.Population.length, Nat.mod_lt _ hpop⟩).Stars| <
        |(g.Population.get ⟨playerNo, h⟩).Stars - m.Stars| := by
    intro k m hk1' hk2' hget
    rw [← getElem?_get_eq _ _ (Nat.mod_lt _ hpop) m hget]
    exact hfirst k hk1' hk2'
  have hd3 : |(g.Population.get ⟨playerNo, h⟩).Stars -
      (g.Population.get ⟨(playerNo + k0) % g.Population.length, Nat.mod_lt _ hpop⟩).Stars| ≤ 3 := by
    have := hmin' kj mj hkj1 hkj2 (by rw [hkj]; exact hjget)
    omega
  have hscan := scanLoop_first_min g.Population hpop (g.Population.get ⟨playerNo, h⟩)
    (g.Population.length - 1) playerNo (-1) 1000 k0 _ hk1 hk2 hget0 (by omega) hmin' hfirst'
  have hfind : findOpponent g.Population playerNo h =
      Matchmaking.opponent (((playerNo + k0) % g.Population.length : Nat) : Int) := by
    unfold findOpponent
    simp only []
    rw [if_neg (by rw [hleg]; decide), hscan]
    simp only []
    rw [if_neg (by omega), if_neg (by omega)]
  have hplay : PlaySingleGame rd pt g playerNo =
      playMatch rd pt g playerNo (((playerNo + k0) % g.Population.length : Nat) : Int) := by
    unfold PlaySingleGame
    rw [dif_pos h, hfind]
  have hself : g.Population[playerNo]? = some (g.Population.get ⟨playerNo, h⟩) := by
    simp [List.getElem?_eq_getElem h]
  refine ⟨k0, _, hk1, hk2, hget0, ?_, ?_, hfind, ?_⟩
  · intro j' m hne hget
    have hlt' : j' < g.Population.length := by
      rcases List.getElem?_eq_some.mp hget with ⟨hlt, _⟩
      exact hlt
    obtain ⟨k', hk1', hk2', hk'⟩ := cyclic_covers playerNo j' _ h hlt' hne
    exact hmin' k' m hk1' hk2' (by rw [hk']; exact hget)
  · intro k m hk1' hk2' hget
    exact ne_of_gt (hfirst' k m hk1' hk2' hget)
  · rw [hplay]
    exact playMatch_eq rd pt g playerNo _ _ _ (cyclic_ne playerNo k0 _ h hk1 hk2) hself hget0

theorem closestThird_eval :
    findOpponent closestThird.Population 0 (by decide) = Matchmaking.opponent 2 := by
  decide

/-- An instance of the preceding theorem: seen from the player on 0 stars, among
players on 2, 1 and 1 stars the opponent is the one at index 2, the first at
distance 1. -/
theorem opponent_is_first_closest_witness :
    findOpponent closestThird.Population 0 (by decide) = Matchmaking.opponent 2 ∧
    ∃ (k0 : Nat) (p2 : HSPlayer), 1 ≤ k0 ∧
      closestThird.Population[(0 + k0) % closestThird.Population.length]? = some p2 ∧
      findOpponent closestThird.Population 0 (by decide) =
        Matchmaking.opponent (((0 + k0) % closestThird.Population.length : Nat) : Int) :=
  ⟨closestThird_eval,
    let ⟨k0, p2, h1, _, h3, _, _, h6, _⟩ :=
      opponent_is_first_closest drawsZero powTenOne closestThird 0 (by decide) (by decide)
        ⟨2, { freshPlayer 1500 with Stars := 1 }, by decide, rfl, by decide⟩
    ⟨k0, p2, h1, h3, h6⟩⟩

theorem scanLoopNoBreak_zero (Population : List HSPlayer) (hpop : 0 < Population.length)
    (p1 : HSPlayer) (n : Nat) :
    ∀ (p2Pos : Nat) (pos diff : Int), diff ≤ 0 →
      scanLoopNoBreak Population hpop p1 n p2Pos pos diff = (pos, diff) := by
  induction n with
  | zero => intro p2Pos pos diff _; rfl
  | succ n ih =>
    intro p2Pos pos diff hd
    unfold scanLoopNoBreak
    simp only []
    have hnn := abs_nonneg (p1.Stars - (Population.get
      ⟨(p2Pos + 1) % Population.length, Nat.mod_lt _ hpop⟩).Stars)
    rw [if_neg (by omega)]
    exact ih _ _ _ hd

theorem scanLoop_eq_noBreak (Population : List HSPlayer) (hpop : 0 < Population.length)
    (p1 : HSPlayer) (n : Nat) :
    ∀ (p2Pos : Nat) (pos diff : Int),
      scanLoop Population hpop p1 n p2Pos pos diff =
        scanLoopNoBreak Population hpop p1 n p2Pos pos diff := by
  induction n with
  | zero => intro p2Pos pos diff; rfl
  | succ n ih =>
    intro p2Pos pos diff
    unfold scanLoop scanLoopNoBreak
    simp only []
    split_ifs with h1 h2 h3
    · rw [scanLoopNoBreak_zero _ _ _ _ _ _ _ (le_of_eq h2)]
    · exact ih _ _ _
    · rw [scanLoopNoBreak_zero _ _ _ _ _ _ _ (le_of_eq h3)]
    · exact ih _ _ _

/-- C16: the early exit of the matchmaking scan is a pure optimisation.  For
every population and every valid focal index, the scan with the `break` yields
the same best position and best difference as the scan without it, which
examines all `size - 1` candidates, and hence the same opponent or skip. -/
theorem early_exit_is_optimisation (Population : List HSPlayer) (playerNo : Nat)
    (h : playerNo < Population.length) :
    scanLoop Population (Nat.lt_of_le_of_lt (Nat.zero_le _) h) (Population.get ⟨playerNo, h⟩)
        (Population.length - 1) playerNo (-1) 1000 =
      scanLoopNoBreak Population (Nat.lt_of_le_of_lt (Nat.zero_le _) h)
        (Population.get ⟨playerNo, h⟩) (Population.length - 1) playerNo (-1) 1000 ∧
    findOpponent Population playerNo h = findOpponentFullScan Population playerNo h := by
  have hs := scanLoop_eq_noBreak Population (Nat.lt_of_le_of_lt (Nat.zero_le _) h)
    (Population.get ⟨playerNo, h⟩) (Population.length - 1) playerNo (-1) 1000
  refine ⟨hs, ?_⟩
  unfold findOpponent findOpponentFullScan
  simp only []
  rw [hs]

/-- An instance of the preceding theorem: among players on 5, 7, 5 and 5
stars both scans select index 2 for the first player. -/
theorem early_exit_is_optimisation_witness :
    0 < zeroThenCloser.Population.length ∧
    findOpponent zeroThenCloser.Population 0 (by decide) = Matchmaking.opponent 2 ∧
    findOpponentFullScan zeroThenCloser.Population 0 (by decide) = Matchmaking.opponent 2 :=
  ⟨by decide, by decide,
    (early_exit_is_optimisation zeroThenCloser.Population 0 (by decide)).2 ▸ (by decide)⟩

/-! ## Wins and losses over the ladder loop -/
theorem PlaySingleGame_wins_losses (rd : Nat → Rat) (pt : Rat → Rat) (g : Globals)
    (playerNo : Nat) (h : playerNo < g.Population.length) :
    ∃ g1 : Globals, PlaySingleGame rd pt g playerNo = some g1 ∧
      g1.Population.length = g.Population.length ∧
      totalWins g1.Population =
        totalWins g.Population + (if producesGame g playerNo then 1 else 0) ∧
      totalLosses g1.Population =
        totalLosses g.Population + (if producesGame g playerNo then 1 else 0) := by
  by_cases hop : ∃ pos : Int, findOpponent g.Population playerNo h = Matchmaking.opponent pos
  · obtain ⟨pos, hres⟩ := hop
    obtain ⟨j, p1, p2, _, hj, hne, h1, h2, hS, hdiff, hplay⟩ :=
      PlaySingleGame_game rd pt g playerNo h pos hres
    rw [producesGame_of_opponent g playerNo h pos hres]
    have h3 : (g.Population.set playerNo
        (p1.UpdatePlayer (decide (rd g.real_generator < expP1 pt p1 p2)) p2))[j]? = some p2 := by
      rw [List.getElem?_set_ne (Ne.symm hne)]; exact h2
    refine ⟨_, hplay, by simp, ?_, ?_⟩
    · simp only [totalWins, if_true]
      rw [sum_map_set _ _ j _ p2 h3, sum_map_set _ _ playerNo _ p1 h1]
      simp only [UpdatePlayer_Wins]
      cases decide (rd g.real_generator < expP1 pt p1 p2) <;> simp <;> omega
    · simp only [totalLosses, if_true]
      rw [sum_map_set _ _ j _ p2 h3, sum_map_set _ _ playerNo _ p1 h1]
      simp only [UpdatePlayer_Losses]
      cases decide (rd g.real_generator < expP1 pt p1 p2) <;> simp <;> omega
  · have hres : ∀ pos : Int, findOpponent g.Population playerNo h ≠ Matchmaking.opponent pos :=
      fun pos hp => hop ⟨pos, hp⟩
    obtain ⟨g1, hg1, hpop, _, _⟩ := PlaySingleGame_skip rd pt g playerNo h hres
    rw [producesGame_of_skip g playerNo h hres]
    exact ⟨g1, hg1, by rw [hpop], by simp [hpop], by simp [hpop]⟩

theorem PlayGames_loop_wins_losses (rd : Nat → Rat) (pt : Rat → Rat) (n : Nat) :
    ∀ (playerNo : Nat) (g : Globals), playerNo < g.Population.length →
      ∃ g2 : Globals, PlayGames.loop rd pt n playerNo g = some g2 ∧
        g2.Population.length = g.Population.length ∧
        totalWins g2.Population = totalWins g.Population + gameTicks rd pt n playerNo g ∧
        totalLosses g2.Population = totalLosses g.Population + gameTicks rd pt n playerNo g := by
  induction n with
  | zero =>
    intro playerNo g _
    exact ⟨g, rfl, rfl, by simp [gameTicks], by simp [gameTicks]⟩
  | succ n ih =>
    intro playerNo g h
    obtain ⟨g1, hg1, hlen, hw, hl⟩ := PlaySingleGame_wins_losses rd pt g playerNo h
    have hpos : 0 < g1.Population.length := by omega
    have hnext : (playerNo + 1) % g1.Population.length <
        ({ g1 with TotalGamesPlayed := g1.TotalGamesPlayed + 1 } : Globals).Population.length :=
      Nat.mod_lt _ hpos
    obtain ⟨g2, hg2, hlen2, hw2, hl2⟩ :=
      ih ((playerNo + 1) % g1.Population.length)
        { g1 with TotalGamesPlayed := g1.TotalGamesPlayed + 1 } hnext
    rw [gameTicks_succ rd pt n playerNo g g1 hg1, PlayGames_loop_succ rd pt n playerNo g g1 hg1 hpos]
    simp only [] at hlen2 hw2 hl2
    refine ⟨g2, hg2, ?_, ?_, ?_⟩
    · rw [hlen2]; exact hlen
    · rw [hw2, hw]; split_ifs <;> push_cast <;> omega
    · rw [hl2, hl]; split_ifs <;> push_cast <;> omega

theorem totals_of_fresh (Population : List HSPlayer)
    (hfresh : ∀ p ∈ Population, p.Wins = 0 ∧ p.Losses = 0) :
    totalWins Population = 0 ∧ totalLosses Population = 0 := by
  induction Population with
  | nil => exact ⟨rfl, rfl⟩
  | cons x xs ih =>
    have hx := hfresh x (List.mem_cons_self _ _)
    have hxs := ih (fun p hp => hfresh p (List.mem_cons_of_mem _ hp))
    unfold totalWins totalLosses at *
    simp only [List.map_cons, List.sum_cons]
    omega

/-- C19: a tick that plays a game adds exactly one win to one of the two
distinct participants and exactly one loss to the other, leaving the winner's
losses and the loser's wins unchanged; so from every non-empty population of
players without wins or losses, for every sequence of random draws and every
number of ticks, `PlayGames` returns and the wins summed over all players equal
the losses summed over all players, each equal to the number of ticks that
produced a game. -/
theorem wins_equal_losses_equal_games (rd : Nat → Rat) (pt : Rat → Rat) (g : Globals) :
    (∀ (playerNo : Nat) (h : playerNo < g.Population.length),
      producesGame g playerNo = true →
      ∃ (j : Nat) (p1 p2 q1 q2 : HSPlayer) (g1 : Globals),
        findOpponent g.Population playerNo h = Matchmaking.opponent (j : Int) ∧
        j ≠ playerNo ∧
        g.Population[playerNo]? = some p1 ∧ g.Population[j]? = some p2 ∧
        PlaySingleGame rd pt g playerNo = some g1 ∧
        g1.Population[playerNo]? = some q1 ∧ g1.Population[j]? = some q2 ∧
        ((q1.Wins = p1.Wins + 1 ∧ q1.Losses = p1.Losses ∧
            q2.Wins = p2.Wins ∧ q2.Losses = p2.Losses + 1) ∨
          (q1.Wins = p1.Wins ∧ q1.Losses = p1.Losses + 1 ∧
            q2.Wins = p2.Wins + 1 ∧ q2.Losses = p2.Losses))) ∧
    (∀ n : Nat, 0 < g.Population.length →
      (∀ p ∈ g.Population, p.Wins = 0 ∧ p.Losses = 0) →
      ∃ g2 : Globals, PlayGames rd pt g (n : Int) = some g2 ∧
        totalWins g2.Population = (gameTicks rd pt n 0 g : Int) ∧
        totalLosses g2.Population = (gameTicks rd pt n 0 g : Int)) := by
  constructor
  · intro playerNo h hp
    obtain ⟨pos, hres⟩ := (producesGame_true_iff g playerNo h).mp hp
    obtain ⟨j, p1, p2, hpos, hj, hne, h1, h2, _, _, hplay⟩ :=
      PlaySingleGame_game rd pt g playerNo h pos hres
    refine ⟨j, p1, p2,
      p1.UpdatePlayer (decide (rd g.real_generator < expP1 pt p1 p2)) p2,
      p2.UpdatePlayer (!decide (rd g.real_generator < expP1 pt p1 p2))
        (p1.UpdatePlayer (decide (rd g.real_generator < expP1 pt p1 p2)) p2),
      _, hpos ▸ hres, hne, h1, h2, hplay, ?_, ?_, ?_⟩
    · simp only []
      rw [List.getElem?_set_ne hne, List.getElem?_set_self h]
    · simp only []
      rw [List.getElem?_set_self (by simpa using hj)]
    · rw [UpdatePlayer_Wins, UpdatePlayer_Losses, UpdatePlayer_Wins, UpdatePlayer_Losses]
      cases decide (rd g.real_generator < expP1 pt p1 p2) <;> simp
  · intro n hpop hfresh
    obtain ⟨g2, hg2, _, hw, hl⟩ := PlayGames_loop_wins_losses rd pt n 0 g hpop
    obtain ⟨h0w, h0l⟩ := totals_of_fresh g.Population hfresh
    refine ⟨{ g2 with cout := g2.cout ++ ["Played " ++ toString g2.TotalGamesPlayed ++ " games"] },
      ?_, ?_, ?_⟩
    · unfold PlayGames
      rw [Int.toNat_ofNat, hg2]
    · simp only []; rw [hw, h0w]; omega
    · simp only []; rw [hl, h0l]; omega

/-- An instance of the preceding theorem: 1000 ticks on two fresh players. -/
theorem wins_equal_losses_equal_games_witness :
    ∃ g2 : Globals, PlayGames drawsZero powTenOne twoFresh1500 ((1000 : Nat) : Int) = some g2 ∧
      totalWins g2.Population = (gameTicks drawsZero powTenOne 1000 0 twoFresh1500 : Int) ∧
      totalLosses g2.Population = (gameTicks drawsZero powTenOne 1000 0 twoFresh1500 : Int) :=
  (wins_equal_losses_equal_games drawsZero powTenOne twoFresh1500).2 1000 (by decide) (by
    intro p hp
    simp only [twoFresh1500, initialGlobals, List.mem_cons, List.mem_singleton,
      List.not_mem_nil, or_false, or_self] at hp
    subst hp
    exact ⟨rfl, rfl⟩)

/-! ## The arena run -/
theorem ArenaRun_loop_spec (rd : Nat → Rat) (WinRate : Rat) (n : Nat) :
    ∀ (Wins Losses : Int) (gen : Nat),
      (12 - Wins).toNat + (3 - Losses).toNat = n →
      0 ≤ Wins → Wins ≤ 12 → 0 ≤ Losses → Losses ≤ 3 → ¬ (Wins = 12 ∧ Losses = 3) →
      Wins ≤ (ArenaRun.loop rd WinRate Wins Losses gen).1 ∧
      (ArenaRun.loop rd WinRate Wins Losses gen).1 ≤ 12 ∧
      Losses ≤ (ArenaRun.loop rd WinRate Wins Losses gen).2.1 ∧
      (ArenaRun.loop rd WinRate Wins Losses gen).2.1 ≤ 3 ∧
      ((ArenaRun.loop rd WinRate Wins Losses gen).1 = 12 ∨
        (ArenaRun.loop rd WinRate Wins Losses gen).2.1 = 3) ∧
      ¬ ((ArenaRun.loop rd WinRate Wins Losses gen).1 = 12 ∧
        (ArenaRun.loop rd WinRate Wins Losses gen).2.1 = 3) ∧
      (((ArenaRun.loop rd WinRate Wins Losses gen).2.2 : Nat) : Int) =
        gen + ((ArenaRun.loop rd WinRate Wins Losses gen).1 - Wins) +
          ((ArenaRun.loop rd WinRate Wins Losses gen).2.1 - Losses) := by
  induction n using Nat.strong_induction_on with
  | _ n ih =>
    intro Wins Losses gen hn hW0 hW hL0 hL hboth
    rw [ArenaRun.loop]
    by_cases hc : Wins < 12 ∧ Losses < 3
    · rw [if_pos hc]
      simp only []
      by_cases hw : decide (rd gen < WinRate) = true
      · rw [if_pos hw]
        have := ih ((12 - (Wins + 1)).toNat + (3 - Losses).toNat) (by omega) (Wins + 1) Losses
          (gen + 1) rfl (by omega) (by omega) hL0 hL (by omega)
        obtain ⟨a, b, c, d, e, f, k⟩ := this
        refine ⟨by omega, b, c, d, e, f, ?_⟩
        rw [k]; push_cast; ring
      · rw [if_neg hw]
        have := ih ((12 - Wins).toNat + (3 - (Losses + 1)).toNat) (by omega) Wins (Losses + 1)
          (gen + 1) rfl hW0 hW (by omega) (by omega) (by omega)
        obtain ⟨a, b, c, d, e, f, k⟩ := this
        refine ⟨a, b, by omega, d, e, f, ?_⟩
        rw [k]; push_cast; ring
    · rw [if_neg hc]
      simp only []
      refine ⟨le_refl _, hW, le_refl _, hL, by omega, hboth, by ring⟩

theorem incrResults_ok (Results : List (List Int)) (Wins Losses : Int)
    (hlen : Results.length = 13) (hrows : ∀ row ∈ Results, row.length = 4)
    (hW0 : 0 ≤ Wins) (hW : Wins ≤ 12) (hL0 : 0 ≤ Losses) (hL : Losses ≤ 3) :
    ∃ Results2 : List (List Int), incrResults Results Wins Losses = some Results2 ∧
      Results2.length = 13 ∧ ∀ row ∈ Results2, row.length = 4 := by
  unfold incrResults
  rw [if_neg (by omega)]
  have hi : Wins.toNat < Results.length := by omega
  rw [List.getElem?_eq_getElem hi]
  simp only []
  have hrow : (Results[Wins.toNat]).length = 4 := hrows _ (List.getElem_mem _)
  have hj : Losses.toNat < (Results[Wins.toNat]).length := by omega
  rw [List.getElem?_eq_getElem hj]
  simp only []
  refine ⟨_, rfl, by simp [hlen], ?_⟩
  intro row hmem
  rcases List.mem_or_eq_of_mem_set hmem with hm | hm
  · exact hrows row hm
  · rw [hm]; simp [hrow]

theorem ArenaRun_spec (rd : Nat → Rat) (g : Globals) (WinRate : Rat) :
    0 ≤ (ArenaRun rd g WinRate).1 ∧ (ArenaRun rd g WinRate).1 ≤ 12 ∧
    0 ≤ (ArenaRun rd g WinRate).2.1 ∧ (ArenaRun rd g WinRate).2.1 ≤ 3 ∧
    ((ArenaRun rd g WinRate).1 = 12 ∨ (ArenaRun rd g WinRate).2.1 = 3) ∧
    ¬ ((ArenaRun rd g WinRate).1 = 12 ∧ (ArenaRun rd g WinRate).2.1 = 3) ∧
    (((ArenaRun rd g WinRate).2.2.real_generator : Nat) : Int) =
      g.real_generator + (ArenaRun rd g WinRate).1 + (ArenaRun rd g WinRate).2.1 ∧
    (ArenaRun rd g WinRate).2.2.real_generator ≤ g.real_generator + 14 := by
  obtain ⟨a, b, c, d, e, f, k⟩ := ArenaRun_loop_spec rd WinRate _ 0 0 g.real_generator rfl
    (le_refl _) (by omega) (le_refl _) (by omega) (by omega)
  unfold ArenaRun
  simp only []
  refine ⟨a, b, c, d, e, f, by rw [k]; ring, by omega⟩

theorem PlayArena_loop_total (rd : Nat → Rat) (WinRate : Rat) (n : Nat) :
    ∀ (l : ArenaLocals) (g : Globals), l.Results.length = 13 →
      (∀ row ∈ l.Results, row.length = 4) →
      ∃ r : ArenaLocals × Globals, PlayArena.loop rd WinRate n l g = some r := by
  induction n with
  | zero => intro l g _ _; exact ⟨(l, g), rfl⟩
  | succ n ih =>
    intro l g hlen hrows
    obtain ⟨a, b, c, d, _, _, _, _⟩ := ArenaRun_spec rd g WinRate
    unfold PlayArena.loop
    simp only []
    have hl1 : (if l.gold - 150 < 0 then
          ({ l with gold := l.gold - 150, bust := true, bustCount := l.bustCount + 1 } :
            ArenaLocals)
        else { l with gold := l.gold - 150 }).Results = l.Results := by
      split_ifs <;> rfl
    obtain ⟨R2, hR2, hlen2, hrows2⟩ := incrResults_ok l.Results _ _ hlen hrows a b c d
    rw [hl1, hR2]
    simp only []
    exact ih _ _ hlen2 hrows2

/-- C20: for every win rate and every sequence of random draws, `ArenaRun`
terminates having drawn at most 14 variates, one per game, with
`0 ≤ Wins ≤ 12`, `0 ≤ Losses ≤ 3` and exactly one of `Wins = 12` and
`Losses = 3`; hence the access `Results[Wins][Losses]` of `PlayArena` stays
inside the 13 by 4 array and `PlayArena` returns for every number of runs. -/
theorem ArenaRun_bounded (real_distribution : Nat → Rat) (g : Globals) (WinRate : Rat) :
    (ArenaRun real_distribution g WinRate).2.2.real_generator ≤ g.real_generator + 14 ∧
    (((ArenaRun real_distribution g WinRate).2.2.real_generator : Nat) : Int) =
      g.real_generator + (ArenaRun real_distribution g WinRate).1 +
        (ArenaRun real_distribution g WinRate).2.1 ∧
    0 ≤ (ArenaRun real_distribution g WinRate).1 ∧
    (ArenaRun real_distribution g WinRate).1 ≤ 12 ∧
    0 ≤ (ArenaRun real_distribution g WinRate).2.1 ∧
    (ArenaRun real_distribution g WinRate).2.1 ≤ 3 ∧
    ((ArenaRun real_distribution g WinRate).1 = 12 ∨
      (ArenaRun real_distribution g WinRate).2.1 = 3) ∧
    ¬ ((ArenaRun real_distribution g WinRate).1 = 12 ∧
      (ArenaRun real_distribution g WinRate).2.1 = 3) ∧
    (∀ NumArenaRuns StartingGold : Int, ∃ r : Int × Globals,
      PlayArena real_distribution g NumArenaRuns StartingGold WinRate = some r) := by
  obtain ⟨a, b, c, d, e, f, k, m⟩ := ArenaRun_spec real_distribution g WinRate
  refine ⟨m, k, a, b, c, d, e, f, ?_⟩
  intro NumArenaRuns StartingGold
  obtain ⟨r, hr⟩ := PlayArena_loop_total real_distribution WinRate NumArenaRuns.toNat
    { bust := false, bustCount := 0, gold := StartingGold,
      Results := List.replicate 13 (List.replicate 4 0) } g (by simp)
    (by intro row hrow; rw [List.eq_of_mem_replicate hrow]; simp)
  refine ⟨(r.1.gold, r.2), ?_⟩
  unfold PlayArena
  simp only []
  rw [hr]

theorem ArenaRun_unfold_win (rd : Nat → Rat) (WinRate : Rat) (Wins Losses : Int) (gen : Nat)
    (hc : Wins < 12 ∧ Losses < 3) (hw : rd gen < WinRate) :
    ArenaRun.loop rd WinRate Wins Losses gen =
      ArenaRun.loop rd WinRate (Wins + 1) Losses (gen + 1) := by
  rw [ArenaRun.loop, if_pos hc]
  simp only []
  rw [if_pos (by simpa using hw)]

theorem ArenaRun_unfold_loss (rd : Nat → Rat) (WinRate : Rat) (Wins Losses : Int) (gen : Nat)
    (hc : Wins < 12 ∧ Losses < 3) (hw : ¬ rd gen < WinRate) :
    ArenaRun.loop rd WinRate Wins Losses gen =
      ArenaRun.loop rd WinRate Wins (Losses + 1) (gen + 1) := by
  rw [ArenaRun.loop, if_pos hc]
  simp only []
  rw [if_neg (by simpa using hw)]

theorem ArenaRun_unfold_stop (rd : Nat → Rat) (WinRate : Rat) (Wins Losses : Int) (gen : Nat)
    (hc : ¬ (Wins < 12 ∧ Losses < 3)) :
    ArenaRun.loop rd WinRate Wins Losses gen = (Wins, Losses, gen) := by
  rw [ArenaRun.loop, if_neg hc]

theorem ArenaRun_three_losses :
    ArenaRun.loop drawsOne 1 0 0 0 = (0, 3, 3) := by
  rw [ArenaRun_unfold_loss _ _ _ _ _ (by decide) (by simp [drawsOne]),
    ArenaRun_unfold_loss _ _ _ _ _ (by decide) (by simp [drawsOne]),
    ArenaRun_unfold_loss _ _ _ _ _ (by decide) (by simp [drawsOne]),
    ArenaRun_unfold_stop _ _ _ _ _ (by decide)]
  rfl

/-- An instance of the preceding theorem: with win rate 1 and every variate 1
the run is three losses, three variates drawn. -/
theorem ArenaRun_bounded_witness :
    ArenaRun.loop drawsOne 1 0 0 0 = (0, 3, 3) ∧
    (ArenaRun drawsOne initialGlobals 1).2.2.real_generator ≤
      initialGlobals.real_generator + 14 ∧
    ∃ r : Int × Globals, PlayArena drawsOne initialGlobals 5 150 1 = some r :=
  ⟨ArenaRun_three_losses, (ArenaRun_bounded drawsOne initialGlobals 1).1,
    (ArenaRun_bounded drawsOne initialGlobals 1).2.2.2.2.2.2.2.2 5 150⟩

end HSLadder
